import Mathlib

/-!
Verification development for the uTP stream reconstructor `utptrace.py`
(repository bashkirtsevich/bttools).  The Python source is shallowly
embedded: machine integers are `Nat` (with `% 65536` where the code wraps,
and `Int` where Python's unbounded integers matter), the mutable per-flow
state is threaded explicitly, and the sink callbacks (`new_flow`,
`new_segment`, `flow_closed`) are collected as an explicit event list.
The in-place drain loop of `add_segment` can in principle re-scan forever,
so it is given explicit fuel and returns `Option`; a `some` result is
exactly a run on which the Python loop terminates with that outcome.
-/

-- Packet types (utptrace.py lines 14-18).
def ST_DATA : Nat := 0

def ST_FIN : Nat := 1

def ST_STATE : Nat := 2

def ST_RESET : Nat := 3

def ST_SYN : Nat := 4

-- Connection states (utptrace.py lines 20-31).
def CS_INIT : Nat := 1

def CS_HANDSHAKE : Nat := 2

def CS_SYN_ACKED : Nat := 3

def CS_CONNECTED : Nat := 4

def CS_INITIATOR_SENT_FIN : Nat := 5

def CS_ACCEPTER_SENT_FIN : Nat := 6

def CS_INITIATOR_FIN_ACKED : Nat := 7

def CS_ACCEPTER_FIN_ACKED : Nat := 8

def CS_BOTH_SENT_FIN : Nat := 9

def CS_BOTH_SENT_FIN_INITIATOR_ACKED : Nat := 10

def CS_BOTH_SENT_FIN_ACCEPTER_ACKED : Nat := 11

def CS_PENDING_CLOSE : Nat := 12

/-- Modelled from the spec: the helper module `serial.py` (imported as
`from serial import SerialNumber`) is not under `src/`.  Spec section 4.4
gives its semantics: RFC 1982 serial comparison of width 16, `a < b` iff
`(a ≠ b) ∧ ((a < b ∧ b - a < 2^15) ∨ (a > b ∧ a - b > 2^15))` over the raw
values; equality is value equality; addition is modulo `2^16`. -/
def serial_lt (a b : Nat) : Bool :=
  (a != b) && ((decide (a < b) && decide (b - a < 32768)) ||
               (decide (a > b) && decide (a - b > 32768)))

/-- One element of `flow.pending`: the Python triple `(payload, seq, direction)`
appended at utptrace.py line 405. -/
structure PendEntry where
  payload : List Nat
  seq : Nat
  dir : Nat
deriving DecidableEq

/-- One `new_segment(flow, direction, payload)` callback, instrumented with the
sequence number of the delivered packet. -/
structure SegEv where
  dir : Nat
  seq : Nat
  payload : List Nat
deriving DecidableEq

/-- Result of one pass of the `while added_some` drain loop
(utptrace.py lines 412-430). -/
structure PassOut where
  s0 : Nat
  s1 : Nat
  rem : List (Nat × Nat)
  added : Bool
  evs : List SegEv
deriving DecidableEq

/-- One `for payload, seq, direction in flow.pending` pass of the drain loop
(utptrace.py lines 415-430): promote, in list order, every buffered entry whose
sequence number equals the current expected one of its direction, bumping that
counter (SerialNumber increment, i.e. mod 2^16) as it goes, and recording the
promoted `(seq, direction)` pairs in `removed`. -/
def drainPass : List PendEntry → Nat → Nat → PassOut
  | [], s0, s1 => ⟨s0, s1, [], false, []⟩
  | e :: rest, s0, s1 =>
    if e.dir = 0 then
      if e.seq = s0 then
        let o := drainPass rest ((s0 + 1) % 65536) s1
        ⟨o.s0, o.s1, (e.seq, e.dir) :: o.rem, true, ⟨e.dir, e.seq, e.payload⟩ :: o.evs⟩
      else
        let o := drainPass rest s0 s1
        ⟨o.s0, o.s1, o.rem, o.added, o.evs⟩
    else
      if e.seq = s1 then
        let o := drainPass rest s0 ((s1 + 1) % 65536)
        ⟨o.s0, o.s1, (e.seq, e.dir) :: o.rem, true, ⟨e.dir, e.seq, e.payload⟩ :: o.evs⟩
      else
        let o := drainPass rest s0 s1
        ⟨o.s0, o.s1, o.rem, o.added, o.evs⟩

/-- Accumulated result of the whole `while added_some` loop. -/
structure LoopOut where
  s0 : Nat
  s1 : Nat
  rem : List (Nat × Nat)
  evs : List SegEv
deriving DecidableEq

/-- The `while added_some` loop (utptrace.py lines 410-430): repeat passes over
the (unchanged) pending list until a pass promotes nothing.  The Python loop
has no fuel; `none` means the given fuel did not suffice, and every `some`
result agrees with the Python execution. -/
def drainLoop : Nat → List PendEntry → Nat → Nat → Option LoopOut
  | 0, _, _, _ => none
  | fuel + 1, pend, s0, s1 =>
    let o := drainPass pend s0 s1
    if o.added then
      match drainLoop fuel pend o.s0 o.s1 with
      | some r => some ⟨r.s0, r.s1, o.rem ++ r.rem, o.evs ++ r.evs⟩
      | none => none
    else some ⟨o.s0, o.s1, o.rem, o.evs⟩

/-- The per-flow reassembly state: the fields of `UtpFlow`
(utptrace.py lines 33-47) that `add_segment` touches, plus the rest of the
record so the state machine can share the type. -/
structure UtpFlow where
  initiator_ip : Nat
  initiator_port : Nat
  accepter_ip : Nat
  accepter_port : Nat
  connid : Nat
  seq0 : Nat
  seq1 : Nat
  state : Nat
  pending : List PendEntry
deriving DecidableEq

/-- The key tuple `flow.tup` (utptrace.py line 42).  The connection id component lives in
`Int` because the flow-table keys are compared against `connid - 1` computed
over Python's unbounded integers (utptrace.py line 375). -/
def UtpFlow.tup (f : UtpFlow) : Nat × Nat × Nat × Nat × Int :=
  (f.initiator_ip, f.initiator_port, f.accepter_ip, f.accepter_port, (f.connid : Int))

/-- The branch on `seq` against the expected sequence (utptrace.py
lines 393-408), before the drain loop runs: deliver-and-bump on equality,
append to `pending` when `seq > fseq` in serial order, drop otherwise. -/
def addStage1 (flow : UtpFlow) (direction : Nat) (payload : List Nat)
    (seq : Nat) : UtpFlow × List SegEv :=
  let fseq := if direction = 0 then flow.seq0 else flow.seq1
  if seq = fseq then
    (if direction = 0 then { flow with seq0 := (flow.seq0 + 1) % 65536 }
     else { flow with seq1 := (flow.seq1 + 1) % 65536 },
     [⟨direction, seq, payload⟩])
  else if serial_lt fseq seq then
    ({ flow with pending := flow.pending ++ [⟨payload, seq, direction⟩] }, [])
  else
    (flow, [])

/-- The reassembler entry point `UtpTracer.add_segment` (utptrace.py
lines 392-432): the branch of
`addStage1`, then the `while added_some` drain loop, then the removal of the
promoted entries from `pending`. -/
def add_segment (fuel : Nat) (flow : UtpFlow) (direction : Nat)
    (payload : List Nat) (seq : Nat) : Option (UtpFlow × List SegEv) :=
  let st1 := addStage1 flow direction payload seq
  match drainLoop fuel st1.1.pending st1.1.seq0 st1.1.seq1 with
  | none => none
  | some r =>
    some ({ st1.1 with
              seq0 := r.s0, seq1 := r.s1,
              pending := st1.1.pending.filter
                (fun e => decide (¬ ((e.seq, e.dir) ∈ r.rem))) },
          st1.2 ++ r.evs)

/-- A run of `add_segment` calls against one flow: the list elements are the
`(direction, payload, seq)` arguments of successive DATA packets attributed to
the flow. -/
def runSegments (fuel : Nat) (flow : UtpFlow) :
    List (Nat × List Nat × Nat) → Option (UtpFlow × List SegEv)
  | [] => some (flow, [])
  | (d, p, s) :: rest =>
    match add_segment fuel flow d p s with
    | none => none
    | some (flow', evs) =>
      match runSegments fuel flow' rest with
      | none => none
      | some (f'', evs') => some (f'', evs ++ evs')

/-- The sequence numbers of the delivered segments of direction `d`, in
delivery order. -/
def seqsOfDir (d : Nat) (evs : List SegEv) : List Nat :=
  (evs.filter (fun e => e.dir == d)).map SegEv.seq

/-- The sequence numbers of the delivered segments handled by the accepter-side
branch of the code (every direction other than 0). -/
def seqsElse (evs : List SegEv) : List Nat :=
  (evs.filter (fun e => ! (e.dir == 0))).map SegEv.seq

/-- Predicate `consecFrom s l`: `l` is the consecutive series `s, s+1, s+2, …`
reduced mod 2^16. -/
def consecFrom : Nat → List Nat → Prop
  | _, [] => True
  | s, x :: xs => x = s % 65536 ∧ consecFrom (s + 1) xs

/-- The reassembly invariant of spec section 3.1: no buffered packet has the
sequence number its direction currently expects. -/
def NoReady (f : UtpFlow) : Prop :=
  ∀ e ∈ f.pending, (e.dir = 0 → e.seq ≠ f.seq0) ∧ (e.dir ≠ 0 → e.seq ≠ f.seq1)

instance (f : UtpFlow) : Decidable (NoReady f) := by
  unfold NoReady; infer_instance

/-- A parsed uTP packet as handed to the dispatch in `UtpTracer.trace`
(utptrace.py lines 363-386): the IP/UDP endpoints, the packet type, the wire
connection id, the sequence number, and the body after the extensions. -/
structure Packet where
  src : Nat
  sport : Nat
  dst : Nat
  dport : Nat
  ty : Nat
  connid : Nat
  seq : Nat
  body : List Nat
deriving DecidableEq

/-- The sink callbacks invoked by the tracer, in invocation order. -/
inductive Ev where
  | newFlow (f : UtpFlow)
  | newSegment (dir : Nat) (seq : Nat) (payload : List Nat)
  | flowClosed (f : UtpFlow)
deriving DecidableEq

def segToEv (e : SegEv) : Ev := Ev.newSegment e.dir e.seq e.payload

/-- The tracer state: the flow table `self.flows` (a dict keyed by the
five-tuple) plus the `added` and `closed` counters of `MyUtpTracer`. -/
structure Tracer where
  flows : List ((Nat × Nat × Nat × Nat × Int) × UtpFlow)
  added : Nat
  closed : Nat
deriving DecidableEq

def initTracer : Tracer := ⟨[], 0, 0⟩

/-- Dictionary lookup `self.flows.get(k, None)`. -/
def findFlow : List ((Nat × Nat × Nat × Nat × Int) × UtpFlow) →
    (Nat × Nat × Nat × Nat × Int) → Option UtpFlow
  | [], _ => none
  | kv :: rest, k => if kv.1 = k then some kv.2 else findFlow rest k

/-- Dictionary assignment `self.flows[k] = f`: overwrite in place or append. -/
def setFlow : List ((Nat × Nat × Nat × Nat × Int) × UtpFlow) →
    (Nat × Nat × Nat × Nat × Int) → UtpFlow →
    List ((Nat × Nat × Nat × Nat × Int) × UtpFlow)
  | [], k, f => [(k, f)]
  | kv :: rest, k, f => if kv.1 = k then (k, f) :: rest else kv :: setFlow rest k f

/-- Dictionary removal `del self.flows[k]` guarded by `if k in self.flows`
(utptrace.py lines 528-529). -/
def removeKey : List ((Nat × Nat × Nat × Nat × Int) × UtpFlow) →
    (Nat × Nat × Nat × Nat × Int) →
    List ((Nat × Nat × Nat × Nat × Int) × UtpFlow)
  | [], _ => []
  | kv :: rest, k => if kv.1 = k then removeKey rest k else kv :: removeKey rest k

/-- The close procedure `MyUtpTracer.flush_and_close` (utptrace.py
lines 515-530), restricted to
the core effects: emit `flow_closed(flow)`, bump the `closed` counter, and
remove the flow's tuple from the table. -/
def flushAndClose (t : Tracer) (f : UtpFlow) : Tracer × List Ev :=
  ({ t with flows := removeKey t.flows f.tup, closed := t.closed + 1 },
   [Ev.flowClosed f])

/-- The `UtpFlow.__init__` record (utptrace.py lines 34-47): fresh flow in
state `CS_HANDSHAKE` with empty pending buffer and `seq1 = 0`. -/
def mkFlow (src sport dst dport connid seq0 : Nat) : UtpFlow :=
  { initiator_ip := src, initiator_port := sport,
    accepter_ip := dst, accepter_port := dport,
    connid := connid, seq0 := seq0, seq1 := 0,
    state := CS_HANDSHAKE, pending := [] }

/-- The `(CS_INIT, ST_SYN, False)` handler (utptrace.py lines 131-138):
create the flow with `seq0 = seq + 1` (SerialNumber addition, mod 2^16),
insert it under its five-tuple, and emit `new_flow`. -/
def handleInitSyn (t : Tracer) (p : Packet) : Tracer × List Ev :=
  let f := mkFlow p.src p.sport p.dst p.dport p.connid ((p.seq + 1) % 65536)
  ({ t with flows := setFlow t.flows (p.src, p.sport, p.dst, p.dport, (p.connid : Int)) f,
            added := t.added + 1 },
   [Ev.newFlow f])

/-- In-place mutation of a flow object found in the table: the table entry at
the flow's tuple now holds the updated record. -/
def updFlowT (t : Tracer) (f : UtpFlow) : Tracer :=
  { t with flows := setFlow t.flows f.tup f }

/-- The comparison `(src, sport, dst, dport) == flow.tup[:-1]`: the packet
travels from the
initiator to the accepter. -/
def fromInitiator (f : UtpFlow) (p : Packet) : Prop :=
  p.src = f.initiator_ip ∧ p.sport = f.initiator_port ∧
  p.dst = f.accepter_ip ∧ p.dport = f.accepter_port

/-- The comparison `(dst, dport, src, sport) == flow.tup[:-1]`: the packet
travels from the
accepter to the initiator. -/
def fromAccepter (f : UtpFlow) (p : Packet) : Prop :=
  p.dst = f.initiator_ip ∧ p.dport = f.initiator_port ∧
  p.src = f.accepter_ip ∧ p.sport = f.accepter_port

instance (f : UtpFlow) (p : Packet) : Decidable (fromInitiator f p) := by
  unfold fromInitiator; infer_instance

instance (f : UtpFlow) (p : Packet) : Decidable (fromAccepter f p) := by
  unfold fromAccepter; infer_instance

/-- The dispatch on `(flow.state, type, True)` over the registry built by the
decorator stacks (utptrace.py lines 131-331).  The registered keys are pairwise
disjoint, so the dictionary lookup is translated as a chain of guards; an
unregistered combination falls through to the final branch, which drops the
packet unchanged (utptrace.py lines 387-390). -/
def dispatchExisting (fuel : Nat) (t : Tracer) (f : UtpFlow) (p : Packet) :
    Option (Tracer × List Ev) :=
  if f.state = CS_HANDSHAKE ∧ p.ty = ST_STATE then
    if fromInitiator f p then some (t, [])
    else some (updFlowT t { f with seq1 := p.seq, state := CS_SYN_ACKED }, [])
  else if f.state = CS_HANDSHAKE ∧ p.ty = ST_SYN then
    if fromInitiator f p then some (t, [])
    else
      let c := flushAndClose t f
      let h := handleInitSyn c.1 p
      some (h.1, c.2 ++ h.2)
  else if f.state = CS_SYN_ACKED ∧ p.ty = ST_FIN then
    if fromInitiator f p then
      some (updFlowT t { f with state := CS_INITIATOR_SENT_FIN }, [])
    else if fromAccepter f p then
      some (updFlowT t { f with state := CS_ACCEPTER_SENT_FIN }, [])
    else some (t, [])
  else if (f.state = CS_SYN_ACKED ∨ f.state = CS_CONNECTED) ∧ p.ty = ST_DATA then
    if fromInitiator f p then
      match add_segment fuel f 0 p.body p.seq with
      | none => none
      | some (f', evs) =>
        some (updFlowT t { f' with state := CS_CONNECTED }, evs.map segToEv)
    else if fromAccepter f p then
      match add_segment fuel f 1 p.body p.seq with
      | none => none
      | some (f', evs) =>
        some (updFlowT t { f' with state := CS_CONNECTED }, evs.map segToEv)
    else some (t, [])
  else if f.state = CS_CONNECTED ∧ p.ty = ST_STATE then some (t, [])
  else if f.state = CS_CONNECTED ∧ p.ty = ST_RESET then
    some (flushAndClose t f)
  else if f.state = CS_CONNECTED ∧ p.ty = ST_FIN then
    if fromInitiator f p then
      some (updFlowT t { f with state := CS_INITIATOR_SENT_FIN }, [])
    else
      some (updFlowT t { f with state := CS_ACCEPTER_SENT_FIN }, [])
  else if f.state = CS_INITIATOR_SENT_FIN ∧ p.ty = ST_STATE then
    some (updFlowT t { f with state := CS_INITIATOR_FIN_ACKED }, [])
  else if f.state = CS_ACCEPTER_SENT_FIN ∧ p.ty = ST_STATE then
    if fromAccepter f p then
      some (updFlowT t { f with state := CS_ACCEPTER_FIN_ACKED }, [])
    else some (t, [])
  else if f.state = CS_INITIATOR_FIN_ACKED ∧ p.ty = ST_FIN then
    if fromInitiator f p then
      some (updFlowT t { f with state := CS_BOTH_SENT_FIN_INITIATOR_ACKED }, [])
    else some (t, [])
  else if f.state = CS_ACCEPTER_FIN_ACKED ∧ p.ty = ST_FIN then
    if fromInitiator f p then
      some (updFlowT t { f with state := CS_BOTH_SENT_FIN_ACCEPTER_ACKED }, [])
    else some (t, [])
  else if f.state = CS_BOTH_SENT_FIN_INITIATOR_ACKED ∧ p.ty = ST_STATE then
    if ¬ fromAccepter f p then some (t, [])
    else if f.pending ≠ [] then
      some (updFlowT t { f with state := CS_PENDING_CLOSE }, [])
    else some (flushAndClose t f)
  else if f.state = CS_INITIATOR_SENT_FIN ∧ p.ty = ST_FIN then
    if fromAccepter f p then
      some (updFlowT t { f with state := CS_BOTH_SENT_FIN }, [])
    else some (t, [])
  else if f.state = CS_ACCEPTER_SENT_FIN ∧ p.ty = ST_FIN then
    if fromInitiator f p then
      some (updFlowT t { f with state := CS_BOTH_SENT_FIN }, [])
    else some (t, [])
  else if f.state = CS_BOTH_SENT_FIN ∧ p.ty = ST_STATE then
    if fromInitiator f p then
      some (updFlowT t { f with state := CS_BOTH_SENT_FIN_INITIATOR_ACKED }, [])
    else
      some (updFlowT t { f with state := CS_BOTH_SENT_FIN_ACCEPTER_ACKED }, [])
  else if f.state = CS_BOTH_SENT_FIN_ACCEPTER_ACKED ∧ p.ty = ST_STATE then
    if ¬ fromInitiator f p then some (t, [])
    else if f.pending ≠ [] then
      some (updFlowT t { f with state := CS_PENDING_CLOSE }, [])
    else some (flushAndClose t f)
  else if f.state = CS_PENDING_CLOSE ∧ p.ty = ST_DATA then
    match add_segment fuel f (if fromInitiator f p then 0 else 1) p.body p.seq with
    | none => none
    | some (f', evs) =>
      if f'.pending = [] then
        let c := flushAndClose (updFlowT t f') f'
        some (c.1, evs.map segToEv ++ c.2)
      else some (updFlowT t f', evs.map segToEv)
  else if (f.state = CS_INITIATOR_SENT_FIN ∨ f.state = CS_ACCEPTER_SENT_FIN ∨
           f.state = CS_INITIATOR_FIN_ACKED ∨ f.state = CS_ACCEPTER_FIN_ACKED ∨
           f.state = CS_BOTH_SENT_FIN ∨ f.state = CS_BOTH_SENT_FIN_INITIATOR_ACKED ∨
           f.state = CS_BOTH_SENT_FIN_ACCEPTER_ACKED) ∧ p.ty = ST_DATA then
    match add_segment fuel f (if fromInitiator f p then 0 else 1) p.body p.seq with
    | none => none
    | some (f', evs) => some (updFlowT t f', evs.map segToEv)
  else if (f.state = CS_INITIATOR_SENT_FIN ∨ f.state = CS_ACCEPTER_SENT_FIN ∨
           f.state = CS_INITIATOR_FIN_ACKED ∨ f.state = CS_ACCEPTER_FIN_ACKED ∨
           f.state = CS_BOTH_SENT_FIN ∨ f.state = CS_BOTH_SENT_FIN_INITIATOR_ACKED ∨
           f.state = CS_BOTH_SENT_FIN_ACCEPTER_ACKED) ∧ p.ty = ST_SYN then
    let c := flushAndClose t f
    let h := handleInitSyn c.1 p
    some (h.1, c.2 ++ h.2)
  else some (t, [])

/-- The first lookup key of `UtpTracer.trace` (utptrace.py line 375):
`connid if type == ST_SYN else connid - 1`, over Python's unbounded integers
(no 16-bit wrap). -/
def key1 (p : Packet) : Nat × Nat × Nat × Nat × Int :=
  (p.src, p.sport, p.dst, p.dport,
   if p.ty = ST_SYN then (p.connid : Int) else (p.connid : Int) - 1)

/-- The second lookup key of `UtpTracer.trace` (utptrace.py line 377): the raw
wire connid with the packet's destination treated as the initiator. -/
def key2 (p : Packet) : Nat × Nat × Nat × Nat × Int :=
  (p.dst, p.dport, p.src, p.sport, (p.connid : Int))

/-- The two-step flow lookup of `UtpTracer.trace` (utptrace.py lines 375-377). -/
def lookupFlow (t : Tracer) (p : Packet) : Option UtpFlow :=
  match findFlow t.flows (key1 p) with
  | some f => some f
  | none => findFlow t.flows (key2 p)

/-- One fully parsed datagram through `UtpTracer.trace` dispatch
(utptrace.py lines 375-390): look the flow up, form the
`(state, type, existing)` key and run the registered action, or drop. -/
def traceStep (fuel : Nat) (t : Tracer) (p : Packet) : Option (Tracer × List Ev) :=
  match lookupFlow t p with
  | some f => dispatchExisting fuel t f p
  | none =>
    if p.ty = ST_SYN then some (handleInitSyn t p)
    else some (t, [])

/-- A capture: successive fully parsed datagrams fed to `traceStep`. -/
def runTrace (fuel : Nat) : Tracer → List Packet → Option (Tracer × List Ev)
  | t, [] => some (t, [])
  | t, p :: ps =>
    match traceStep fuel t p with
    | none => none
    | some (t', evs) =>
      match runTrace fuel t' ps with
      | none => none
      | some (t'', evs') => some (t'', evs ++ evs')

/-- The set of keys registered in `state_machine` by the decorator stacks of
utptrace.py (states numbered as in lines 20-31, packet types as in
lines 14-18, the Bool is `existing_flow`). -/
def registeredKeys : List (Nat × Nat × Bool) :=
  [(CS_INIT, ST_SYN, false),
   (CS_HANDSHAKE, ST_STATE, true), (CS_HANDSHAKE, ST_SYN, true),
   (CS_SYN_ACKED, ST_FIN, true),
   (CS_SYN_ACKED, ST_DATA, true), (CS_CONNECTED, ST_DATA, true),
   (CS_CONNECTED, ST_STATE, true), (CS_CONNECTED, ST_RESET, true),
   (CS_CONNECTED, ST_FIN, true),
   (CS_INITIATOR_SENT_FIN, ST_STATE, true), (CS_ACCEPTER_SENT_FIN, ST_STATE, true),
   (CS_INITIATOR_FIN_ACKED, ST_FIN, true), (CS_ACCEPTER_FIN_ACKED, ST_FIN, true),
   (CS_BOTH_SENT_FIN_INITIATOR_ACKED, ST_STATE, true),
   (CS_INITIATOR_SENT_FIN, ST_FIN, true), (CS_ACCEPTER_SENT_FIN, ST_FIN, true),
   (CS_BOTH_SENT_FIN, ST_STATE, true),
   (CS_BOTH_SENT_FIN_ACCEPTER_ACKED, ST_STATE, true),
   (CS_PENDING_CLOSE, ST_DATA, true),
   (CS_INITIATOR_SENT_FIN, ST_DATA, true), (CS_ACCEPTER_SENT_FIN, ST_DATA, true),
   (CS_INITIATOR_FIN_ACKED, ST_DATA, true), (CS_ACCEPTER_FIN_ACKED, ST_DATA, true),
   (CS_BOTH_SENT_FIN, ST_DATA, true),
   (CS_BOTH_SENT_FIN_INITIATOR_ACKED, ST_DATA, true),
   (CS_BOTH_SENT_FIN_ACCEPTER_ACKED, ST_DATA, true),
   (CS_INITIATOR_SENT_FIN, ST_SYN, true), (CS_ACCEPTER_SENT_FIN, ST_SYN, true),
   (CS_INITIATOR_FIN_ACKED, ST_SYN, true), (CS_ACCEPTER_FIN_ACKED, ST_SYN, true),
   (CS_BOTH_SENT_FIN, ST_SYN, true),
   (CS_BOTH_SENT_FIN_INITIATOR_ACKED, ST_SYN, true),
   (CS_BOTH_SENT_FIN_ACCEPTER_ACKED, ST_SYN, true)]

/-- Membership `(state, type, existing) in state_machine`. -/
def hasEntry (s ty : Nat) (e : Bool) : Prop := (s, ty, e) ∈ registeredKeys

instance (s ty : Nat) (e : Bool) : Decidable (hasEntry s ty e) := by
  unfold hasEntry; infer_instance

def newFlowCount (evs : List Ev) : Nat :=
  (evs.filter (fun e => match e with | Ev.newFlow _ => true | _ => false)).length

def flowClosedCount (evs : List Ev) : Nat :=
  (evs.filter (fun e => match e with | Ev.flowClosed _ => true | _ => false)).length

/-- The flow-table bookkeeping invariant: keys are distinct, every stored flow
is stored under its own tuple, and the table size balances the `added` and
`closed` counters. -/
def TableInv (t : Tracer) : Prop :=
  (t.flows.map Prod.fst).Nodup ∧
  (∀ kv ∈ t.flows, UtpFlow.tup kv.2 = kv.1) ∧
  t.flows.length + t.closed = t.added

/-- Outcome of the extension-walking loop of `UtpTracer.trace`
(utptrace.py lines 353-361). -/
inductive ExtOut where
  | done (extLen : Nat)
  | rejected
  | crash
deriving DecidableEq

/-- The `while extension != 0` loop (utptrace.py lines 355-361).  Each
iteration first checks `len(payload) < 20 + ext_len + 1` and rejects, then
evaluates `ord(payload[20 + ext_len])` and `ord(payload[20 + ext_len + 1])`;
an index at or past the end of the payload raises `IndexError`, embedded as
`ExtOut.crash`. -/
def extLoop (payload : List Nat) (extension extLen : Nat) : ExtOut :=
  if extension = 0 then .done extLen
  else if payload.length < 20 + extLen + 1 then .rejected
  else
    match payload[20 + extLen]?, payload[20 + extLen + 1]? with
    | some e, some l => extLoop payload e (extLen + 2 + l)
    | _, _ => .crash
termination_by payload.length - extLen
decreasing_by simp_all; omega

/-- Outcome of `UtpTracer.trace`'s header parsing: a parsed packet, a silent
rejection (`return` after a debug log), or an uncaught exception. -/
inductive ParseOut where
  | ok (ty connid seq : Nat) (body : List Nat)
  | rejected
  | crash
deriving DecidableEq

/-- The header-parsing prefix of `UtpTracer.trace` (utptrace.py lines 338-373
and the body slice at line 386): length check, version and type nibbles of
byte 0, the extension loop, then connid (bytes 2-3 big-endian), seq
(bytes 16-17 big-endian) and the body from offset `20 + ext_len`. -/
def parsePacket (payload : List Nat) : ParseOut :=
  if payload.length < 20 then .rejected
  else
    let b0 := payload.getD 0 0
    if b0 % 16 ≠ 1 then .rejected
    else if b0 / 16 > 4 then .rejected
    else
      match extLoop payload (payload.getD 1 0) 0 with
      | .crash => .crash
      | .rejected => .rejected
      | .done extLen =>
        .ok (b0 / 16) (payload.getD 2 0 * 256 + payload.getD 3 0)
          (payload.getD 16 0 * 256 + payload.getD 17 0)
          (payload.drop (20 + extLen))

-- Concrete instances used by the counterexample and witness theorems below.

/-- A flow created by a SYN carrying connid 65535, fully established. -/
def c2flow : UtpFlow :=
  { initiator_ip := 1, initiator_port := 1, accepter_ip := 2, accepter_port := 2,
    connid := 65535, seq0 := 10, seq1 := 500, state := CS_CONNECTED, pending := [] }

def c2tracer : Tracer := ⟨[(c2flow.tup, c2flow)], 1, 0⟩

/-- The initiator's next DATA packet: wire connid `(65535 + 1) mod 2^16 = 0`,
carrying exactly the expected sequence number. -/
def c2pkt : Packet := ⟨1, 1, 2, 2, ST_DATA, 0, 10, [42]⟩

/-- A flow still in HANDSHAKE. -/
def c3flow : UtpFlow := mkFlow 1 1 2 2 7 101

def c3tracer : Tracer := ⟨[(c3flow.tup, c3flow)], 1, 0⟩

/-- A RESET from the accepter while the flow is in HANDSHAKE. -/
def c3pkt : Packet := ⟨2, 2, 1, 1, ST_RESET, 7, 600, []⟩

/-- An established flow used to exercise the CONNECTED/RESET close path. -/
def c3cflow : UtpFlow :=
  { initiator_ip := 1, initiator_port := 1, accepter_ip := 2, accepter_port := 2,
    connid := 9, seq0 := 10, seq1 := 500, state := CS_CONNECTED, pending := [] }

def c3ctracer : Tracer := ⟨[(c3cflow.tup, c3cflow)], 1, 0⟩

def c3cpkt : Packet := ⟨2, 2, 1, 1, ST_RESET, 9, 0, []⟩

/-- A flow whose accepter has sent FIN. -/
def c4flow : UtpFlow :=
  { initiator_ip := 1, initiator_port := 1, accepter_ip := 2, accepter_port := 2,
    connid := 7, seq0 := 101, seq1 := 501, state := CS_ACCEPTER_SENT_FIN, pending := [] }

def c4tracer : Tracer := ⟨[(c4flow.tup, c4flow)], 1, 0⟩

/-- STATE from the initiator (wire connid `7 + 1`). -/
def c4pktI : Packet := ⟨1, 1, 2, 2, ST_STATE, 8, 101, []⟩

/-- STATE from the accepter (wire connid 7). -/
def c4pktA : Packet := ⟨2, 2, 1, 1, ST_STATE, 7, 501, []⟩

def c4flowAfter : UtpFlow := { c4flow with state := CS_ACCEPTER_FIN_ACKED }

/-- A flow used for the duplicate-DATA witness: one buffered out-of-order
packet, none of them deliverable. -/
def c5flow : UtpFlow :=
  { initiator_ip := 1, initiator_port := 1, accepter_ip := 2, accepter_port := 2,
    connid := 7, seq0 := 5, seq1 := 0, state := CS_CONNECTED,
    pending := [⟨[9], 7, 0⟩] }

def c6flow : UtpFlow :=
  { initiator_ip := 1, initiator_port := 1, accepter_ip := 2, accepter_port := 2,
    connid := 7, seq0 := 5, seq1 := 0, state := CS_CONNECTED,
    pending := [⟨[2], 6, 0⟩] }

def c6flowAfter : UtpFlow := { c6flow with seq0 := 7, pending := [] }

def c6evs : List SegEv := [⟨0, 5, [1]⟩, ⟨0, 6, [2]⟩]

/-- A SYN_ACKED flow about to receive its first DATA packet out of order. -/
def c7flow : UtpFlow :=
  { initiator_ip := 1, initiator_port := 1, accepter_ip := 2, accepter_port := 2,
    connid := 7, seq0 := 100, seq1 := 500, state := CS_SYN_ACKED, pending := [] }

def c7tracer : Tracer := ⟨[(c7flow.tup, c7flow)], 1, 0⟩

/-- First DATA from the initiator, five packets ahead of the expected
sequence number. -/
def c7pkt : Packet := ⟨1, 1, 2, 2, ST_DATA, 8, 105, [97]⟩

def c7flowAfter : UtpFlow :=
  { c7flow with state := CS_CONNECTED, pending := [⟨[97], 105, 0⟩] }

/-- A flow in BOTH_SENT_FIN_INITIATOR_ACKED with nothing pending, awaiting the
final STATE from the accepter. -/
def c7gflow : UtpFlow :=
  { initiator_ip := 1, initiator_port := 1, accepter_ip := 2, accepter_port := 2,
    connid := 11, seq0 := 10, seq1 := 20,
    state := CS_BOTH_SENT_FIN_INITIATOR_ACKED, pending := [] }

def c7gtracer : Tracer := ⟨[(c7gflow.tup, c7gflow)], 1, 0⟩

def c7gpkt : Packet := ⟨2, 2, 1, 1, ST_STATE, 11, 0, []⟩

/-- A FIN with no matching flow: the key `(CS_INIT, ST_FIN, False)` has no
registered handler. -/
def c8pkt : Packet := ⟨1, 1, 2, 2, ST_FIN, 7, 10, []⟩

/-- A 21-byte payload: version 1, type 0, a nonzero extension byte, zeros
elsewhere.  The extension loop's guard passes (`21 < 21` is false) and the
read of the length byte at index 21 is out of range. -/
def c9payload : List Nat := 1 :: 1 :: List.replicate 19 0

/-- A flow on the 16-bit sequence wrap: `seq0 = 65535`. -/
def wrapFlow : UtpFlow :=
  { initiator_ip := 1, initiator_port := 1, accepter_ip := 2, accepter_port := 2,
    connid := 7, seq0 := 65535, seq1 := 0, state := CS_CONNECTED, pending := [] }

/-- DATA `seq=65535` then DATA `seq=0`, both from the initiator. -/
def wrapInputs : List (Nat × List Nat × Nat) := [(0, [120], 65535), (0, [121], 0)]

def wrapFlowAfter : UtpFlow := { wrapFlow with seq0 := 1 }

def wrapEvs : List SegEv := [⟨0, 65535, [120]⟩, ⟨0, 0, [121]⟩]

def c10pkt : Packet := ⟨1, 1, 2, 2, ST_SYN, 7, 100, []⟩

def c10tracerAfter : Tracer :=
  ⟨[((1, 1, 2, 2, (7 : Int)), mkFlow 1 1 2 2 7 101)], 1, 0⟩

def c10evs : List Ev := [Ev.newFlow (mkFlow 1 1 2 2 7 101)]

/-! ### Lemmas about serial numbers and the drain loop -/

theorem serial_lt_ne {a b : Nat} (h : serial_lt a b = true) : a ≠ b := by
  simp only [serial_lt, Bool.and_eq_true, bne_iff_ne, ne_eq] at h
  exact h.1

theorem serial_lt_asymm {a b : Nat} (h : serial_lt a b = true) :
    serial_lt b a = false := by
  simp only [serial_lt, Bool.and_eq_true, Bool.or_eq_true, bne_iff_ne, ne_eq,
    decide_eq_true_eq] at h ⊢
  rw [Bool.and_eq_false_iff]
  right
  rw [Bool.or_eq_false_iff]
  constructor <;> rw [Bool.and_eq_false_iff] <;>
    simp only [decide_eq_false_iff_not, not_lt] <;> omega

theorem drainPass_not_added {pend : List PendEntry} {s0 s1 : Nat}
    (h : (drainPass pend s0 s1).added = false) :
    (drainPass pend s0 s1).s0 = s0 ∧ (drainPass pend s0 s1).s1 = s1 ∧
    (drainPass pend s0 s1).rem = [] ∧ (drainPass pend s0 s1).evs = [] ∧
    ∀ e ∈ pend, (e.dir = 0 → e.seq ≠ s0) ∧ (e.dir ≠ 0 → e.seq ≠ s1) := by
  induction pend generalizing s0 s1 with
  | nil => simp [drainPass]
  | cons e rest ih =>
    by_cases hd : e.dir = 0
    · by_cases hs : e.seq = s0
      · simp [drainPass, hd, hs] at h
      · simp only [drainPass, hd, hs, if_true, if_false, ite_true, ite_false] at h ⊢
        obtain ⟨h0, h1, h2, h3, h4⟩ := ih h
        refine ⟨h0, h1, h2, h3, fun x hx => ?_⟩
        rcases List.mem_cons.1 hx with rfl | hx
        · exact ⟨fun _ => hs, fun hne => absurd hd hne⟩
        · exact h4 x hx
    · by_cases hs : e.seq = s1
      · simp [drainPass, hd, hs] at h
      · simp only [drainPass, hd, hs, if_true, if_false, ite_true, ite_false] at h ⊢
        obtain ⟨h0, h1, h2, h3, h4⟩ := ih h
        refine ⟨h0, h1, h2, h3, fun x hx => ?_⟩
        rcases List.mem_cons.1 hx with rfl | hx
        · exact ⟨fun h0' => absurd h0' hd, fun _ => hs⟩
        · exact h4 x hx

theorem drainPass_of_mismatch {pend : List PendEntry} {s0 s1 : Nat}
    (h : ∀ e ∈ pend, (e.dir = 0 → e.seq ≠ s0) ∧ (e.dir ≠ 0 → e.seq ≠ s1)) :
    drainPass pend s0 s1 = ⟨s0, s1, [], false, []⟩ := by
  induction pend with
  | nil => simp [drainPass]
  | cons e rest ih =>
    have he := h e (List.mem_cons_self e rest)
    by_cases hd : e.dir = 0
    · have hs : e.seq ≠ s0 := he.1 hd
      simp only [drainPass, hd, hs, if_true, if_false, ite_true, ite_false]
      rw [ih fun x hx => h x (List.mem_cons_of_mem e hx)]
    · have hs : e.seq ≠ s1 := he.2 hd
      simp only [drainPass, hd, hs, if_true, if_false, ite_true, ite_false]
      rw [ih fun x hx => h x (List.mem_cons_of_mem e hx)]

theorem drainLoop_mismatch {fuel : Nat} {pend : List PendEntry} {s0 s1 : Nat}
    {r : LoopOut} (h : drainLoop fuel pend s0 s1 = some r) :
    ∀ e ∈ pend, (e.dir = 0 → e.seq ≠ r.s0) ∧ (e.dir ≠ 0 → e.seq ≠ r.s1) := by
  induction fuel generalizing s0 s1 r with
  | zero => simp [drainLoop] at h
  | succ n ih =>
    rw [drainLoop] at h
    by_cases ha : (drainPass pend s0 s1).added
    · simp only [ha, if_true, ite_true] at h
      cases hr : drainLoop n pend (drainPass pend s0 s1).s0 (drainPass pend s0 s1).s1 with
      | none => rw [hr] at h; exact absurd h (by simp)
      | some r' =>
        rw [hr] at h
        simp only [Option.some.injEq] at h
        subst h
        intro e he
        simpa using ih hr e he
    · rw [Bool.not_eq_true] at ha
      simp only [ha, Bool.false_eq_true, if_false, ite_false, Option.some.injEq] at h
      subst h
      obtain ⟨h0, h1, _, _, h4⟩ := drainPass_not_added ha
      intro e he
      refine ⟨fun hd => ?_, fun hd => ?_⟩
      · rw [h0]; exact (h4 e he).1 hd
      · rw [h1]; exact (h4 e he).2 hd

/-- C6 helper: the result flow of `add_segment` has the drained sequence
counters and a pending buffer that is a sub-list of the scanned one. -/
theorem add_segment_some {fuel : Nat} {f : UtpFlow} {d : Nat} {p : List Nat}
    {s : Nat} {f' : UtpFlow} {evs : List SegEv}
    (h : add_segment fuel f d p s = some (f', evs)) :
    ∃ r : LoopOut,
      drainLoop fuel (addStage1 f d p s).1.pending (addStage1 f d p s).1.seq0
        (addStage1 f d p s).1.seq1 = some r ∧
      f' = { (addStage1 f d p s).1 with
               seq0 := r.s0, seq1 := r.s1,
               pending := (addStage1 f d p s).1.pending.filter
                 (fun e => decide (¬ ((e.seq, e.dir) ∈ r.rem))) } ∧
      evs = (addStage1 f d p s).2 ++ r.evs := by
  simp only [add_segment] at h
  cases hr : drainLoop fuel (addStage1 f d p s).1.pending (addStage1 f d p s).1.seq0
      (addStage1 f d p s).1.seq1 with
  | none => rw [hr] at h; exact absurd h (by simp)
  | some r =>
    rw [hr] at h
    simp only [Option.some.injEq, Prod.mk.injEq] at h
    exact ⟨r, rfl, h.1.symm, h.2.symm⟩

/-- C6: after any completed `add_segment` call, no entry of the pending buffer
carries the sequence number its direction currently expects. -/
theorem c6_pending_never_ready (fuel : Nat) (f : UtpFlow) (d : Nat)
    (p : List Nat) (s : Nat) (f' : UtpFlow) (evs : List SegEv)
    (h : add_segment fuel f d p s = some (f', evs)) : NoReady f' := by
  obtain ⟨r, hr, hf', _⟩ := add_segment_some h
  have hm := drainLoop_mismatch hr
  subst hf'
  intro e he
  have he' : e ∈ (addStage1 f d p s).1.pending := List.mem_of_mem_filter he
  exact hm e he'

/-- C6 witness: a concrete run (in-order packet plus one promoted buffered
packet) whose result satisfies the invariant. -/
theorem c6_pending_never_ready_witness : NoReady c6flowAfter :=
  c6_pending_never_ready 2 c6flow 0 [1] 5 c6flowAfter c6evs (by decide)

/-- C5: a DATA packet with `seq < fseq` in RFC 1982 serial order is discarded:
provided the pending buffer holds no immediately deliverable entry (the C6
invariant), `add_segment` emits nothing and leaves the flow unchanged. -/
theorem c5_duplicate_discarded (fuel : Nat) (f : UtpFlow) (d : Nat)
    (p : List Nat) (s : Nat) (hfuel : 0 < fuel) (hnr : NoReady f)
    (hlt : serial_lt s (if d = 0 then f.seq0 else f.seq1) = true) :
    add_segment fuel f d p s = some (f, []) := by
  have hne : s ≠ (if d = 0 then f.seq0 else f.seq1) := serial_lt_ne hlt
  have hgt : serial_lt (if d = 0 then f.seq0 else f.seq1) s = false :=
    serial_lt_asymm hlt
  have hst : addStage1 f d p s = (f, []) := by
    unfold addStage1
    rw [if_neg hne, if_neg (by rw [hgt]; simp)]
  obtain ⟨n, rfl⟩ : ∃ n, fuel = n + 1 := ⟨fuel - 1, by omega⟩
  have hpass : drainPass f.pending f.seq0 f.seq1 = ⟨f.seq0, f.seq1, [], false, []⟩ :=
    drainPass_of_mismatch hnr
  unfold add_segment
  rw [hst]
  simp only
  rw [drainLoop, hpass]
  simp

/-- C5 witness: a retransmitted `seq = 3` against a flow expecting `seq = 5`
(with one undeliverable buffered packet) is discarded outright. -/
theorem c5_duplicate_discarded_witness :
    add_segment 1 c5flow 0 [1] 3 = some (c5flow, []) :=
  c5_duplicate_discarded 1 c5flow 0 [1] 3 (by decide) (by decide) (by decide)

/-! ### In-order delivery (C1) -/

theorem consecFrom_congr {s t : Nat} (h : s % 65536 = t % 65536) :
    ∀ l : List Nat, consecFrom s l ↔ consecFrom t l := by
  intro l
  induction l generalizing s t with
  | nil => simp [consecFrom]
  | cons x xs ih =>
    simp only [consecFrom, h]
    constructor
    · rintro ⟨hx, h2⟩; exact ⟨hx, (ih (by omega)).1 h2⟩
    · rintro ⟨hx, h2⟩; exact ⟨hx, (ih (by omega)).2 h2⟩

theorem consecFrom_append {l1 l2 : List Nat} {s : Nat}
    (h1 : consecFrom s l1) (h2 : consecFrom (s + l1.length) l2) :
    consecFrom s (l1 ++ l2) := by
  induction l1 generalizing s with
  | nil => simpa using h2
  | cons x xs ih =>
    obtain ⟨hx, hxs⟩ := h1
    simp only [List.length_cons] at h2
    refine ⟨hx, ih hxs ?_⟩
    rw [show s + 1 + xs.length = s + (xs.length + 1) from by omega]
    exact h2

theorem seqsOfDir_append (d : Nat) (l1 l2 : List SegEv) :
    seqsOfDir d (l1 ++ l2) = seqsOfDir d l1 ++ seqsOfDir d l2 := by
  simp [seqsOfDir]

theorem seqsElse_append (l1 l2 : List SegEv) :
    seqsElse (l1 ++ l2) = seqsElse l1 ++ seqsElse l2 := by
  simp [seqsElse]

theorem drainPass_consec (pend : List PendEntry) {s0 s1 : Nat}
    (hb0 : s0 < 65536) (hb1 : s1 < 65536) :
    consecFrom s0 (seqsOfDir 0 (drainPass pend s0 s1).evs) ∧
    (drainPass pend s0 s1).s0 =
      (s0 + (seqsOfDir 0 (drainPass pend s0 s1).evs).length) % 65536 ∧
    (drainPass pend s0 s1).s0 < 65536 ∧
    consecFrom s1 (seqsElse (drainPass pend s0 s1).evs) ∧
    (drainPass pend s0 s1).s1 =
      (s1 + (seqsElse (drainPass pend s0 s1).evs).length) % 65536 ∧
    (drainPass pend s0 s1).s1 < 65536 := by
  induction pend generalizing s0 s1 with
  | nil =>
    simp only [drainPass, seqsOfDir, seqsElse, List.filter_nil, List.map_nil,
      List.length_nil, consecFrom]
    refine ⟨trivial, by omega, hb0, trivial, by omega, hb1⟩
  | cons e rest ih =>
    by_cases hd : e.dir = 0
    · by_cases hs : e.seq = s0
      · have hlt : (s0 + 1) % 65536 < 65536 := Nat.mod_lt _ (by omega)
        obtain ⟨i1, i2, i3, i4, i5, i6⟩ := ih hlt hb1
        simp only [drainPass, hd, hs, if_true, ite_true, seqsOfDir, seqsElse,
          List.filter_cons, beq_self_eq_true, Bool.not_true, List.map_cons] at *
        refine ⟨⟨(Nat.mod_eq_of_lt hb0).symm, ?_⟩, ?_, i3, i4, i5, i6⟩
        · exact (consecFrom_congr (by omega) _).1 i1
        · simp only [List.length_cons]
          omega
      · obtain ⟨i1, i2, i3, i4, i5, i6⟩ := ih hb0 hb1
        simp only [drainPass, hd, hs, if_true, if_false, ite_true, ite_false]
        exact ⟨i1, i2, i3, i4, i5, i6⟩
    · by_cases hs : e.seq = s1
      · have hlt : (s1 + 1) % 65536 < 65536 := Nat.mod_lt _ (by omega)
        obtain ⟨i1, i2, i3, i4, i5, i6⟩ := ih hb0 hlt
        have hbeq : (e.dir == 0) = false := by simpa using hd
        simp only [drainPass, hd, hs, if_true, if_false, ite_true, ite_false,
          seqsOfDir, seqsElse, List.filter_cons, hbeq, Bool.not_false,
          List.map_cons] at *
        refine ⟨i1, i2, i3, ⟨(Nat.mod_eq_of_lt hb1).symm, ?_⟩, ?_, i6⟩
        · exact (consecFrom_congr (by omega) _).1 i4
        · simp only [List.length_cons]
          omega
      · obtain ⟨i1, i2, i3, i4, i5, i6⟩ := ih hb0 hb1
        simp only [drainPass, hd, hs, if_true, if_false, ite_true, ite_false]
        exact ⟨i1, i2, i3, i4, i5, i6⟩

theorem drainLoop_consec {fuel : Nat} {pend : List PendEntry} {s0 s1 : Nat}
    {r : LoopOut} (hb0 : s0 < 65536) (hb1 : s1 < 65536)
    (h : drainLoop fuel pend s0 s1 = some r) :
    consecFrom s0 (seqsOfDir 0 r.evs) ∧
    r.s0 = (s0 + (seqsOfDir 0 r.evs).length) % 65536 ∧ r.s0 < 65536 ∧
    consecFrom s1 (seqsElse r.evs) ∧
    r.s1 = (s1 + (seqsElse r.evs).length) % 65536 ∧ r.s1 < 65536 := by
  induction fuel generalizing s0 s1 r with
  | zero => simp [drainLoop] at h
  | succ n ih =>
    rw [drainLoop] at h
    obtain ⟨p1, p2, p3, p4, p5, p6⟩ := drainPass_consec pend hb0 hb1
    by_cases ha : (drainPass pend s0 s1).added
    · simp only [ha, if_true, ite_true] at h
      cases hr : drainLoop n pend (drainPass pend s0 s1).s0 (drainPass pend s0 s1).s1 with
      | none => rw [hr] at h; exact absurd h (by simp)
      | some r' =>
        rw [hr] at h
        simp only [Option.some.injEq] at h
        subst h
        obtain ⟨j1, j2, j3, j4, j5, j6⟩ := ih p3 p6 hr
        simp only [seqsOfDir_append, seqsElse_append, List.length_append]
        refine ⟨?_, ?_, j3, ?_, ?_, j6⟩
        · refine consecFrom_append p1 ?_
          refine (consecFrom_congr ?_ _).1 j1
          omega
        · omega
        · refine consecFrom_append p4 ?_
          refine (consecFrom_congr ?_ _).1 j4
          omega
        · omega
    · rw [Bool.not_eq_true] at ha
      simp only [ha, Bool.false_eq_true, if_false, ite_false, Option.some.injEq] at h
      subst h
      exact ⟨p1, p2, p3, p4, p5, p6⟩

theorem add_segment_consec {fuel : Nat} {f : UtpFlow} {d : Nat} {p : List Nat}
    {s : Nat} {f' : UtpFlow} {evs : List SegEv}
    (hb0 : f.seq0 < 65536) (hb1 : f.seq1 < 65536)
    (h : add_segment fuel f d p s = some (f', evs)) :
    consecFrom f.seq0 (seqsOfDir 0 evs) ∧
    f'.seq0 = (f.seq0 + (seqsOfDir 0 evs).length) % 65536 ∧ f'.seq0 < 65536 ∧
    consecFrom f.seq1 (seqsElse evs) ∧
    f'.seq1 = (f.seq1 + (seqsElse evs).length) % 65536 ∧ f'.seq1 < 65536 := by
  obtain ⟨r, hr, hf', hevs⟩ := add_segment_some h
  subst hf' hevs
  by_cases hseq : s = (if d = 0 then f.seq0 else f.seq1)
  · by_cases hd : d = 0
    · rw [if_pos hd] at hseq
      have hst : addStage1 f d p s =
          ({ f with seq0 := (f.seq0 + 1) % 65536 }, [⟨d, s, p⟩]) := by
        unfold addStage1
        rw [if_pos (by rw [if_pos hd]; exact hseq), if_pos hd]
      rw [hst] at hr ⊢
      simp only at hr
      have hlt : (f.seq0 + 1) % 65536 < 65536 := Nat.mod_lt _ (by omega)
      obtain ⟨j1, j2, j3, j4, j5, j6⟩ := drainLoop_consec hlt hb1 hr
      subst hd hseq
      simp only [seqsOfDir, seqsElse, List.singleton_append, List.filter_cons,
        beq_self_eq_true, Bool.not_true, if_true, ite_true, if_false, ite_false,
        List.map_cons, List.length_cons]
      refine ⟨⟨(Nat.mod_eq_of_lt hb0).symm, ?_⟩, ?_, j3, j4, ?_, j6⟩
      · exact (consecFrom_congr (by omega) _).1 j1
      · simp only [seqsOfDir] at j2
        omega
      · simpa [seqsElse] using j5
    · rw [if_neg hd] at hseq
      have hst : addStage1 f d p s =
          ({ f with seq1 := (f.seq1 + 1) % 65536 }, [⟨d, s, p⟩]) := by
        unfold addStage1
        rw [if_pos (by rw [if_neg hd]; exact hseq), if_neg hd]
      rw [hst] at hr ⊢
      simp only at hr
      have hlt : (f.seq1 + 1) % 65536 < 65536 := Nat.mod_lt _ (by omega)
      obtain ⟨j1, j2, j3, j4, j5, j6⟩ := drainLoop_consec hb0 hlt hr
      subst hseq
      have hbeq : (d == 0) = false := by simpa using hd
      simp only [seqsOfDir, seqsElse, List.singleton_append, List.filter_cons,
        hbeq, Bool.not_false, if_true, ite_true, if_false, ite_false,
        List.map_cons, List.length_cons]
      refine ⟨j1, ?_, j3, ⟨(Nat.mod_eq_of_lt hb1).symm, ?_⟩, ?_, j6⟩
      · simpa [seqsOfDir] using j2
      · exact (consecFrom_congr (by omega) _).1 j4
      · simp only [seqsElse] at j5
        omega
  · have hst2 : (addStage1 f d p s).2 = [] ∧
        (addStage1 f d p s).1.seq0 = f.seq0 ∧
        (addStage1 f d p s).1.seq1 = f.seq1 := by
      unfold addStage1
      simp only
      rw [if_neg hseq]
      by_cases hgt : serial_lt (if d = 0 then f.seq0 else f.seq1) s = true
      · simp [hgt]
      · simp [hgt]
    obtain ⟨he2, he0, he1⟩ := hst2
    rw [he0, he1] at hr
    obtain ⟨j1, j2, j3, j4, j5, j6⟩ := drainLoop_consec hb0 hb1 hr
    simp only [he2, List.nil_append]
    exact ⟨j1, j2, j3, j4, j5, j6⟩

theorem runSegments_consec {fuel : Nat} {f : UtpFlow}
    {inputs : List (Nat × List Nat × Nat)} {f' : UtpFlow} {evs : List SegEv}
    (hb0 : f.seq0 < 65536) (hb1 : f.seq1 < 65536)
    (h : runSegments fuel f inputs = some (f', evs)) :
    consecFrom f.seq0 (seqsOfDir 0 evs) ∧
    f'.seq0 = (f.seq0 + (seqsOfDir 0 evs).length) % 65536 ∧ f'.seq0 < 65536 ∧
    consecFrom f.seq1 (seqsElse evs) ∧
    f'.seq1 = (f.seq1 + (seqsElse evs).length) % 65536 ∧ f'.seq1 < 65536 := by
  induction inputs generalizing f evs with
  | nil =>
    simp only [runSegments, Option.some.injEq, Prod.mk.injEq] at h
    obtain ⟨rfl, rfl⟩ := h
    exact ⟨trivial, by simp [seqsOfDir]; omega, hb0,
           trivial, by simp [seqsElse]; omega, hb1⟩
  | cons i rest ih =>
    obtain ⟨d, p, s⟩ := i
    rw [runSegments] at h
    cases h1 : add_segment fuel f d p s with
    | none => simp only [h1] at h; exact absurd h (by simp)
    | some fe =>
      obtain ⟨f1, evs1⟩ := fe
      simp only [h1] at h
      cases h2 : runSegments fuel f1 rest with
      | none => simp only [h2] at h; exact absurd h (by simp)
      | some fe2 =>
        obtain ⟨f2, evs2⟩ := fe2
        simp only [h2, Option.some.injEq, Prod.mk.injEq] at h
        obtain ⟨rfl, rfl⟩ := h
        obtain ⟨a1, a2, a3, a4, a5, a6⟩ := add_segment_consec hb0 hb1 h1
        obtain ⟨b1, b2, b3, b4, b5, b6⟩ := ih a3 a6 h2
        simp only [seqsOfDir_append, seqsElse_append, List.length_append]
        refine ⟨?_, ?_, b3, ?_, ?_, b6⟩
        · refine consecFrom_append a1 ?_
          refine (consecFrom_congr ?_ _).1 b1
          omega
        · omega
        · refine consecFrom_append a4 ?_
          refine (consecFrom_congr ?_ _).1 b4
          omega
        · omega

theorem drainPass_dirs {P : Nat → Prop} {pend : List PendEntry} {s0 s1 : Nat}
    (hp : ∀ e ∈ pend, P e.dir) :
    ∀ ev ∈ (drainPass pend s0 s1).evs, P ev.dir := by
  induction pend generalizing s0 s1 with
  | nil => simp [drainPass]
  | cons e rest ih =>
    have hpr : ∀ x ∈ rest, P x.dir := fun x hx => hp x (List.mem_cons_of_mem e hx)
    have hpe : P e.dir := hp e (List.mem_cons_self e rest)
    by_cases hd : e.dir = 0
    · by_cases hs : e.seq = s0
      · simp only [drainPass, hd, hs, if_true, ite_true, List.mem_cons]
        rintro ev (rfl | hev)
        · exact hd ▸ hpe
        · exact ih hpr ev hev
      · simp only [drainPass, hd, hs, if_true, if_false, ite_true, ite_false]
        exact ih hpr
    · by_cases hs : e.seq = s1
      · simp only [drainPass, hd, hs, if_true, if_false, ite_true, ite_false,
          List.mem_cons]
        rintro ev (rfl | hev)
        · exact hpe
        · exact ih hpr ev hev
      · simp only [drainPass, hd, hs, if_true, if_false, ite_true, ite_false]
        exact ih hpr

theorem drainLoop_dirs {P : Nat → Prop} {fuel : Nat} {pend : List PendEntry}
    {s0 s1 : Nat} {r : LoopOut} (hp : ∀ e ∈ pend, P e.dir)
    (h : drainLoop fuel pend s0 s1 = some r) :
    ∀ ev ∈ r.evs, P ev.dir := by
  induction fuel generalizing s0 s1 r with
  | zero => simp [drainLoop] at h
  | succ n ih =>
    rw [drainLoop] at h
    by_cases ha : (drainPass pend s0 s1).added
    · simp only [ha, if_true, ite_true] at h
      cases hr : drainLoop n pend (drainPass pend s0 s1).s0 (drainPass pend s0 s1).s1 with
      | none => rw [hr] at h; exact absurd h (by simp)
      | some r' =>
        rw [hr] at h
        simp only [Option.some.injEq] at h
        subst h
        intro ev hev
        simp only [List.mem_append] at hev
        rcases hev with hev | hev
        · exact drainPass_dirs hp ev hev
        · exact ih hr ev hev
    · rw [Bool.not_eq_true] at ha
      simp only [ha, Bool.false_eq_true, if_false, ite_false, Option.some.injEq] at h
      subst h
      exact drainPass_dirs hp

theorem add_segment_dirs {P : Nat → Prop} {fuel : Nat} {f : UtpFlow} {d : Nat}
    {p : List Nat} {s : Nat} {f' : UtpFlow} {evs : List SegEv}
    (hd : P d) (hp : ∀ e ∈ f.pending, P e.dir)
    (h : add_segment fuel f d p s = some (f', evs)) :
    (∀ ev ∈ evs, P ev.dir) ∧ (∀ e ∈ f'.pending, P e.dir) := by
  obtain ⟨r, hr, hf', hevs⟩ := add_segment_some h
  have hpend : ∀ e ∈ (addStage1 f d p s).1.pending, P e.dir := by
    unfold addStage1
    simp only
    by_cases hseq : s = (if d = 0 then f.seq0 else f.seq1)
    · rw [if_pos hseq]
      by_cases hdz : d = 0
      · rw [if_pos hdz]; exact hp
      · rw [if_neg hdz]; exact hp
    · rw [if_neg hseq]
      by_cases hgt : serial_lt (if d = 0 then f.seq0 else f.seq1) s = true
      · simp only [hgt, if_true, ite_true]
        intro e he
        simp only [List.mem_append, List.mem_singleton] at he
        rcases he with he | rfl
        · exact hp e he
        · exact hd
      · simp only [hgt, if_false, ite_false, Bool.false_eq_true]
        exact hp
  have hst2 : ∀ ev ∈ (addStage1 f d p s).2, P ev.dir := by
    unfold addStage1
    simp only
    by_cases hseq : s = (if d = 0 then f.seq0 else f.seq1)
    · rw [if_pos hseq]
      intro ev hev
      simp only [List.mem_singleton] at hev
      subst hev
      exact hd
    · rw [if_neg hseq]
      by_cases hgt : serial_lt (if d = 0 then f.seq0 else f.seq1) s = true <;>
        simp [hgt]
  constructor
  · subst hevs
    intro ev hev
    simp only [List.mem_append] at hev
    rcases hev with hev | hev
    · exact hst2 ev hev
    · exact drainLoop_dirs hpend hr ev hev
  · subst hf'
    intro e he
    exact hpend e (List.mem_of_mem_filter he)

theorem runSegments_dirs {P : Nat → Prop} {fuel : Nat} {f : UtpFlow}
    {inputs : List (Nat × List Nat × Nat)} {f' : UtpFlow} {evs : List SegEv}
    (hi : ∀ i ∈ inputs, P i.1) (hp : ∀ e ∈ f.pending, P e.dir)
    (h : runSegments fuel f inputs = some (f', evs)) :
    ∀ ev ∈ evs, P ev.dir := by
  induction inputs generalizing f evs with
  | nil =>
    simp only [runSegments, Option.some.injEq, Prod.mk.injEq] at h
    obtain ⟨rfl, rfl⟩ := h
    simp
  | cons i rest ih =>
    obtain ⟨d, p, s⟩ := i
    rw [runSegments] at h
    cases h1 : add_segment fuel f d p s with
    | none => simp only [h1] at h; exact absurd h (by simp)
    | some fe =>
      obtain ⟨f1, evs1⟩ := fe
      simp only [h1] at h
      cases h2 : runSegments fuel f1 rest with
      | none => simp only [h2] at h; exact absurd h (by simp)
      | some fe2 =>
        obtain ⟨f2, evs2⟩ := fe2
        simp only [h2, Option.some.injEq, Prod.mk.injEq] at h
        obtain ⟨rfl, rfl⟩ := h
        obtain ⟨a1, a2⟩ := add_segment_dirs (hi (d, p, s) (List.mem_cons_self _ _)) hp h1
        intro ev hev
        simp only [List.mem_append] at hev
        rcases hev with hev | hev
        · exact a1 ev hev
        · exact ih (fun x hx => hi x (List.mem_cons_of_mem _ hx)) a2 h2 ev hev

theorem seqsOfDir_one_eq_seqsElse {evs : List SegEv}
    (h : ∀ ev ∈ evs, ev.dir = 0 ∨ ev.dir = 1) :
    seqsOfDir 1 evs = seqsElse evs := by
  induction evs with
  | nil => simp [seqsOfDir, seqsElse]
  | cons ev rest ih =>
    have hr := ih fun x hx => h x (List.mem_cons_of_mem ev hx)
    rcases h ev (List.mem_cons_self ev rest) with h0 | h1
    · simp [seqsOfDir, seqsElse, h0, List.filter_cons] at hr ⊢
      exact hr
    · simp [seqsOfDir, seqsElse, h1, List.filter_cons] at hr ⊢
      exact hr

/-- C1: over any completed run of DATA packets against one flow, the sequence
numbers of the segments delivered for direction `d` form the consecutive
series `s, s+1, s+2, …` mod 2^16 starting at the flow's expected sequence for
that direction at the start of the run (`seq0` for direction 0, `seq1` for
direction 1) — in particular across the 65535 to 0 wrap. -/
theorem c1_inorder_delivery (fuel : Nat) (f : UtpFlow)
    (inputs : List (Nat × List Nat × Nat)) (f' : UtpFlow) (evs : List SegEv)
    (d : Nat) (hd : d = 0 ∨ d = 1)
    (hb0 : f.seq0 < 65536) (hb1 : f.seq1 < 65536)
    (hp : ∀ e ∈ f.pending, e.dir = 0 ∨ e.dir = 1)
    (hi : ∀ i ∈ inputs, i.1 = 0 ∨ i.1 = 1)
    (h : runSegments fuel f inputs = some (f', evs)) :
    consecFrom (if d = 0 then f.seq0 else f.seq1) (seqsOfDir d evs) := by
  rcases hd with rfl | rfl
  · simpa using (runSegments_consec hb0 hb1 h).1
  · have hw := runSegments_dirs (P := fun x => x = 0 ∨ x = 1) hi hp h
    rw [if_neg (by decide), seqsOfDir_one_eq_seqsElse hw]
    exact (runSegments_consec hb0 hb1 h).2.2.2.1

/-- C1 witness: a flow with `seq0 = 65535` receiving DATA `seq = 65535` then
DATA `seq = 0` delivers both, in order, across the wrap. -/
theorem c1_inorder_delivery_witness :
    consecFrom (if 0 = 0 then wrapFlow.seq0 else wrapFlow.seq1)
      (seqsOfDir 0 wrapEvs) :=
  c1_inorder_delivery 1 wrapFlow wrapInputs wrapFlowAfter wrapEvs 0
    (Or.inl rfl) (by decide) (by decide) (by decide) (by decide) (by decide)


/-! ### Flow lookup and the state machine (C2, C3, C4, C7, C8) -/

/-- C2: the flow lookup does not wrap `connid - 1` to 16 bits.  A flow created
by a SYN with connid 65535 does not receive the initiator's subsequent packets,
which carry wire connid `(65535 + 1) mod 2^16 = 0`: the computed key component
is `0 - 1 = -1` over Python's unbounded integers, both lookups miss, and the
in-sequence DATA packet is dropped with no state change and no event. -/
theorem c2_lookup_no_wrap :
    key1 c2pkt = (1, 1, 2, 2, (-1 : Int)) ∧
    lookupFlow c2tracer c2pkt = none ∧
    traceStep 1 c2tracer c2pkt = some (c2tracer, []) := by
  refine ⟨by decide, by decide, by decide⟩

/-- C3 counterexample: a RESET arriving on a flow in state HANDSHAKE (matched
by the second lookup) is dropped: the tracer is unchanged — the flow stays in
the table in the same state, nothing is flushed, and no `flow_closed` is
emitted — contradicting "RESET at any time closes the flow". -/
theorem c3_reset_handshake_ignored :
    traceStep 1 c3tracer c3pkt = some (c3tracer, []) ∧
    findFlow c3tracer.flows c3flow.tup = some c3flow ∧
    c3flow.state = CS_HANDSHAKE := by
  refine ⟨by decide, by decide, by decide⟩

/-- C4: in state ACCEPTER_SENT_FIN the handler moves to ACCEPTER_FIN_ACKED
only when the STATE packet's destination tuple equals the initiator side,
i.e. on a STATE sent by the accepter.  A STATE from the initiator — the
direction the spec's transition table prescribes — leaves the flow unchanged,
while a STATE from the accepter performs the transition. -/
theorem c4_accepter_fin_ack_direction :
    traceStep 1 c4tracer c4pktI = some (c4tracer, []) ∧
    fromInitiator c4flow c4pktI ∧
    traceStep 1 c4tracer c4pktA = some (⟨[(c4flow.tup, c4flowAfter)], 1, 0⟩, []) ∧
    fromAccepter c4flow c4pktA ∧
    c4flowAfter.state = CS_ACCEPTER_FIN_ACKED := by
  refine ⟨by decide, by decide, by decide, by decide, by decide⟩

/-- C7 counterexample: a flow in SYN_ACKED whose first DATA packet arrives out
of order buffers the packet and then enters CONNECTED, so at the instant of its
first transition to CONNECTED the pending buffer is non-empty. -/
theorem c7_pending_nonempty_on_connect :
    traceStep 1 c7tracer c7pkt = some (⟨[(c7flow.tup, c7flowAfter)], 1, 0⟩, []) ∧
    c7flowAfter.state = CS_CONNECTED ∧
    c7flowAfter.pending ≠ [] := by
  refine ⟨by decide, by decide, by decide⟩

/-! ### Parser bounds (C9) -/

/-- C9: the extension loop's guard is off by one.  On a 21-byte payload with a
nonzero extension byte the guard `len(payload) < 20 + ext_len + 1` passes
(21 < 21 is false), the loop then reads the length byte at index
`20 + ext_len + 1 = 21 = len(payload)`, and the resulting `IndexError`
escapes `trace` — the packet is not rejected before the out-of-range access,
contradicting the claimed bound `len(payload) ≥ 20 + ext_len + 2`. -/
theorem c9_extension_loop_oob :
    c9payload.length = 21 ∧ parsePacket c9payload = ParseOut.crash := by
  constructor
  · decide
  · have h : extLoop c9payload 1 0 = ExtOut.crash := by
      rw [extLoop.eq_def]
      norm_num [c9payload, List.getElem?_replicate]
    simp [parsePacket, c9payload] at h ⊢
    rw [h]

/-- Dispatch fall-through: a `(state, type, True)` key with no registered
handler leaves the tracer unchanged and emits nothing. -/
theorem dispatch_no_entry {fuel : Nat} {t : Tracer} {f : UtpFlow} {p : Packet}
    (hNE : ¬ hasEntry f.state p.ty true) :
    dispatchExisting fuel t f p = some (t, []) := by
  have n1 : ¬(f.state = CS_HANDSHAKE ∧ p.ty = ST_STATE) :=
    fun hc => hNE (by rw [hc.1, hc.2]; decide)
  have n2 : ¬(f.state = CS_HANDSHAKE ∧ p.ty = ST_SYN) :=
    fun hc => hNE (by rw [hc.1, hc.2]; decide)
  have n3 : ¬(f.state = CS_SYN_ACKED ∧ p.ty = ST_FIN) :=
    fun hc => hNE (by rw [hc.1, hc.2]; decide)
  have n4 : ¬((f.state = CS_SYN_ACKED ∨ f.state = CS_CONNECTED) ∧ p.ty = ST_DATA) := by
    rintro ⟨h1 | h1, h2⟩ <;> exact hNE (by rw [h1, h2]; decide)
  have n5 : ¬(f.state = CS_CONNECTED ∧ p.ty = ST_STATE) :=
    fun hc => hNE (by rw [hc.1, hc.2]; decide)
  have n6 : ¬(f.state = CS_CONNECTED ∧ p.ty = ST_RESET) :=
    fun hc => hNE (by rw [hc.1, hc.2]; decide)
  have n7 : ¬(f.state = CS_CONNECTED ∧ p.ty = ST_FIN) :=
    fun hc => hNE (by rw [hc.1, hc.2]; decide)
  have n8 : ¬(f.state = CS_INITIATOR_SENT_FIN ∧ p.ty = ST_STATE) :=
    fun hc => hNE (by rw [hc.1, hc.2]; decide)
  have n9 : ¬(f.state = CS_ACCEPTER_SENT_FIN ∧ p.ty = ST_STATE) :=
    fun hc => hNE (by rw [hc.1, hc.2]; decide)
  have n10 : ¬(f.state = CS_INITIATOR_FIN_ACKED ∧ p.ty = ST_FIN) :=
    fun hc => hNE (by rw [hc.1, hc.2]; decide)
  have n11 : ¬(f.state = CS_ACCEPTER_FIN_ACKED ∧ p.ty = ST_FIN) :=
    fun hc => hNE (by rw [hc.1, hc.2]; decide)
  have n12 : ¬(f.state = CS_BOTH_SENT_FIN_INITIATOR_ACKED ∧ p.ty = ST_STATE) :=
    fun hc => hNE (by rw [hc.1, hc.2]; decide)
  have n13 : ¬(f.state = CS_INITIATOR_SENT_FIN ∧ p.ty = ST_FIN) :=
    fun hc => hNE (by rw [hc.1, hc.2]; decide)
  have n14 : ¬(f.state = CS_ACCEPTER_SENT_FIN ∧ p.ty = ST_FIN) :=
    fun hc => hNE (by rw [hc.1, hc.2]; decide)
  have n15 : ¬(f.state = CS_BOTH_SENT_FIN ∧ p.ty = ST_STATE) :=
    fun hc => hNE (by rw [hc.1, hc.2]; decide)
  have n16 : ¬(f.state = CS_BOTH_SENT_FIN_ACCEPTER_ACKED ∧ p.ty = ST_STATE) :=
    fun hc => hNE (by rw [hc.1, hc.2]; decide)
  have n17 : ¬(f.state = CS_PENDING_CLOSE ∧ p.ty = ST_DATA) :=
    fun hc => hNE (by rw [hc.1, hc.2]; decide)
  have n18 : ¬((f.state = CS_INITIATOR_SENT_FIN ∨ f.state = CS_ACCEPTER_SENT_FIN ∨
      f.state = CS_INITIATOR_FIN_ACKED ∨ f.state = CS_ACCEPTER_FIN_ACKED ∨
      f.state = CS_BOTH_SENT_FIN ∨ f.state = CS_BOTH_SENT_FIN_INITIATOR_ACKED ∨
      f.state = CS_BOTH_SENT_FIN_ACCEPTER_ACKED) ∧ p.ty = ST_DATA) := by
    rintro ⟨h1 | h1 | h1 | h1 | h1 | h1 | h1, h2⟩ <;>
      exact hNE (by rw [h1, h2]; decide)
  have n19 : ¬((f.state = CS_INITIATOR_SENT_FIN ∨ f.state = CS_ACCEPTER_SENT_FIN ∨
      f.state = CS_INITIATOR_FIN_ACKED ∨ f.state = CS_ACCEPTER_FIN_ACKED ∨
      f.state = CS_BOTH_SENT_FIN ∨ f.state = CS_BOTH_SENT_FIN_INITIATOR_ACKED ∨
      f.state = CS_BOTH_SENT_FIN_ACCEPTER_ACKED) ∧ p.ty = ST_SYN) := by
    rintro ⟨h1 | h1 | h1 | h1 | h1 | h1 | h1, h2⟩ <;>
      exact hNE (by rw [h1, h2]; decide)
  unfold dispatchExisting
  rw [if_neg n1, if_neg n2, if_neg n3, if_neg n4, if_neg n5, if_neg n6,
      if_neg n7, if_neg n8, if_neg n9, if_neg n10, if_neg n11, if_neg n12,
      if_neg n13, if_neg n14, if_neg n15, if_neg n16, if_neg n17, if_neg n18,
      if_neg n19]

/-- C8: a parsed packet whose `(state, type, flow-existence)` key has no entry
in the registry is dropped: the tracer (flow table and every flow in it) is
returned unchanged and no event is emitted; the dispatch is total, so no
exception reaches the caller. -/
theorem c8_unknown_transition_drop (fuel : Nat) (t : Tracer) (p : Packet)
    (h1 : ∀ f, lookupFlow t p = some f → ¬ hasEntry f.state p.ty true)
    (h2 : lookupFlow t p = none → ¬ hasEntry CS_INIT p.ty false) :
    traceStep fuel t p = some (t, []) := by
  unfold traceStep
  cases hl : lookupFlow t p with
  | some f => exact dispatch_no_entry (h1 f hl)
  | none =>
    have hty : p.ty ≠ ST_SYN := fun hty => h2 hl (by rw [hty]; decide)
    rw [if_neg hty]

/-- C8 witness: a FIN with no matching flow — key `(CS_INIT, ST_FIN, False)` —
is dropped on the empty tracer. -/
theorem c8_unknown_transition_drop_witness :
    traceStep 1 initTracer c8pkt = some (initTracer, []) :=
  c8_unknown_transition_drop 1 initTracer c8pkt
    (fun f h => by simp [lookupFlow, findFlow, initTracer] at h)
    (fun _ => by decide)

/-- C3 amended: a matching RESET destroys the flow only when the flow is in
state CONNECTED (flushed, `flow_closed` emitted, removed from the table); in
every other state the `(state, RESET, True)` key is unregistered and the
packet is dropped with the tracer unchanged. -/
theorem c3_reset_connected_only (fuel : Nat) (t : Tracer) (p : Packet)
    (f : UtpFlow) (hl : lookupFlow t p = some f) (hty : p.ty = ST_RESET) :
    (f.state = CS_CONNECTED → traceStep fuel t p = some (flushAndClose t f)) ∧
    (f.state ≠ CS_CONNECTED → traceStep fuel t p = some (t, [])) := by
  constructor
  · intro hs
    unfold traceStep
    simp only [hl]
    unfold dispatchExisting
    rw [hs, hty]
    norm_num [CS_INIT, CS_HANDSHAKE, CS_SYN_ACKED, CS_CONNECTED,
      CS_INITIATOR_SENT_FIN, CS_ACCEPTER_SENT_FIN, CS_INITIATOR_FIN_ACKED,
      CS_ACCEPTER_FIN_ACKED, CS_BOTH_SENT_FIN, CS_BOTH_SENT_FIN_INITIATOR_ACKED,
      CS_BOTH_SENT_FIN_ACCEPTER_ACKED, CS_PENDING_CLOSE,
      ST_DATA, ST_FIN, ST_STATE, ST_RESET, ST_SYN]
  · intro hs
    unfold traceStep
    simp only [hl]
    unfold dispatchExisting
    rw [hty]
    simp only [CS_INIT, CS_HANDSHAKE, CS_SYN_ACKED, CS_CONNECTED,
      CS_INITIATOR_SENT_FIN, CS_ACCEPTER_SENT_FIN, CS_INITIATOR_FIN_ACKED,
      CS_ACCEPTER_FIN_ACKED, CS_BOTH_SENT_FIN, CS_BOTH_SENT_FIN_INITIATOR_ACKED,
      CS_BOTH_SENT_FIN_ACCEPTER_ACKED, CS_PENDING_CLOSE,
      ST_DATA, ST_FIN, ST_STATE, ST_RESET, ST_SYN] at hs ⊢
    simp [hs]

/-- C3 amended witness: a RESET on a CONNECTED flow closes it. -/
theorem c3_reset_connected_only_witness :
    traceStep 1 c3ctracer c3cpkt = some (flushAndClose c3ctracer c3cflow) :=
  (c3_reset_connected_only 1 c3ctracer c3cpkt c3cflow (by decide) (by decide)).1
    (by decide)

theorem flowClosed_not_mem_map_segToEv (g : UtpFlow) (l : List SegEv) :
    Ev.flowClosed g ∉ l.map segToEv := by
  intro h
  obtain ⟨e, _, he⟩ := List.mem_map.1 h
  simp [segToEv] at he

/-- C7 amended: `pending` can be non-empty at the instant a flow first enters
CONNECTED (see the counterexample) and on RESET or supplanting-SYN close, but
every flow closed through the graceful paths — the final STATE in
BOTH_SENT_FIN_INITIATOR_ACKED or BOTH_SENT_FIN_ACCEPTER_ACKED, and the drain
in PENDING_CLOSE — has an empty pending buffer at the instant of close. -/
theorem c7_graceful_close_pending_empty (fuel : Nat) (t : Tracer) (p : Packet)
    (f : UtpFlow) (t' : Tracer) (evs : List Ev) (g : UtpFlow)
    (hl : lookupFlow t p = some f)
    (hs : ((f.state = CS_BOTH_SENT_FIN_INITIATOR_ACKED ∨
            f.state = CS_BOTH_SENT_FIN_ACCEPTER_ACKED) ∧ p.ty = ST_STATE) ∨
          (f.state = CS_PENDING_CLOSE ∧ p.ty = ST_DATA))
    (h : traceStep fuel t p = some (t', evs))
    (hg : Ev.flowClosed g ∈ evs) :
    g.pending = [] := by
  unfold traceStep at h
  simp only [hl] at h
  unfold dispatchExisting at h
  rcases hs with ⟨hst | hst, hty⟩ | ⟨hst, hty⟩
  all_goals rw [hst, hty] at h
  all_goals norm_num [CS_INIT, CS_HANDSHAKE, CS_SYN_ACKED, CS_CONNECTED,
    CS_INITIATOR_SENT_FIN, CS_ACCEPTER_SENT_FIN, CS_INITIATOR_FIN_ACKED,
    CS_ACCEPTER_FIN_ACKED, CS_BOTH_SENT_FIN, CS_BOTH_SENT_FIN_INITIATOR_ACKED,
    CS_BOTH_SENT_FIN_ACCEPTER_ACKED, CS_PENDING_CLOSE,
    ST_DATA, ST_FIN, ST_STATE, ST_RESET, ST_SYN] at h
  · -- BOTH_SENT_FIN_INITIATOR_ACKED, STATE
    split_ifs at h with h1 h2 <;>
      simp only [flushAndClose, Option.some.injEq, Prod.mk.injEq] at h <;>
      obtain ⟨rfl, rfl⟩ := h <;>
      simp at hg
    rw [hg]
    exact h2
  · -- BOTH_SENT_FIN_ACCEPTER_ACKED, STATE
    split_ifs at h with h1 h2 <;>
      simp only [flushAndClose, Option.some.injEq, Prod.mk.injEq] at h <;>
      obtain ⟨rfl, rfl⟩ := h <;>
      simp at hg
    rw [hg]
    exact h2
  · -- PENDING_CLOSE, DATA
    cases ha : add_segment fuel f (if fromInitiator f p then 0 else 1) p.body p.seq with
    | none => rw [ha] at h; exact absurd h (by simp)
    | some fe =>
      obtain ⟨f1, evs1⟩ := fe
      rw [ha] at h
      simp only at h
      split_ifs at h with h1
      · simp only [flushAndClose, Option.some.injEq, Prod.mk.injEq] at h
        obtain ⟨rfl, rfl⟩ := h
        simp only [List.mem_append, List.mem_singleton] at hg
        rcases hg with hg | hg
        · exact absurd hg (flowClosed_not_mem_map_segToEv g evs1)
        · simp only [Ev.flowClosed.injEq] at hg
          subst hg
          exact h1
      · simp only [Option.some.injEq, Prod.mk.injEq] at h
        obtain ⟨rfl, rfl⟩ := h
        exact absurd hg (flowClosed_not_mem_map_segToEv g evs1)

/-- C7 amended witness: the final STATE on a BOTH_SENT_FIN_INITIATOR_ACKED
flow closes it, and the closed flow's pending buffer is empty. -/
theorem c7_graceful_close_pending_empty_witness : c7gflow.pending = [] :=
  c7_graceful_close_pending_empty 1 c7gtracer c7gpkt c7gflow
    (flushAndClose c7gtracer c7gflow).1 (flushAndClose c7gtracer c7gflow).2
    c7gflow (by decide) (by decide) (by decide) (by decide)

/-! ### Flow-table bookkeeping (C10) -/

theorem findFlow_mem {l : List ((Nat × Nat × Nat × Nat × Int) × UtpFlow)}
    {k : Nat × Nat × Nat × Nat × Int} {f : UtpFlow}
    (h : findFlow l k = some f) : (k, f) ∈ l := by
  induction l with
  | nil => simp [findFlow] at h
  | cons kv rest ih =>
    rw [findFlow] at h
    by_cases hk : kv.1 = k
    · rw [if_pos hk] at h
      simp only [Option.some.injEq] at h
      subst h
      subst hk
      exact List.mem_cons_self _ _
    · rw [if_neg hk] at h
      exact List.mem_cons_of_mem _ (ih h)

theorem findFlow_none {l : List ((Nat × Nat × Nat × Nat × Int) × UtpFlow)}
    {k : Nat × Nat × Nat × Nat × Int}
    (h : findFlow l k = none) : k ∉ l.map Prod.fst := by
  induction l with
  | nil => simp
  | cons kv rest ih =>
    rw [findFlow] at h
    by_cases hk : kv.1 = k
    · rw [if_pos hk] at h; exact absurd h (by simp)
    · rw [if_neg hk] at h
      simp only [List.map_cons, List.mem_cons]
      rintro (rfl | hmem)
      · exact hk rfl
      · exact ih h hmem

theorem setFlow_keys_mem {l : List ((Nat × Nat × Nat × Nat × Int) × UtpFlow)}
    {k : Nat × Nat × Nat × Nat × Int} (f : UtpFlow)
    (hk : k ∈ l.map Prod.fst) :
    (setFlow l k f).map Prod.fst = l.map Prod.fst := by
  induction l with
  | nil => simp at hk
  | cons kv rest ih =>
    rw [setFlow]
    by_cases h : kv.1 = k
    · rw [if_pos h]
      simp [h]
    · rw [if_neg h]
      simp only [List.map_cons, List.mem_cons] at hk ⊢
      rcases hk with rfl | hk
      · exact absurd rfl h
      · rw [ih hk]

theorem setFlow_keys_not_mem {l : List ((Nat × Nat × Nat × Nat × Int) × UtpFlow)}
    {k : Nat × Nat × Nat × Nat × Int} (f : UtpFlow)
    (hk : k ∉ l.map Prod.fst) :
    (setFlow l k f).map Prod.fst = l.map Prod.fst ++ [k] := by
  induction l with
  | nil => simp [setFlow]
  | cons kv rest ih =>
    rw [setFlow]
    simp only [List.map_cons, List.mem_cons] at hk
    push_neg at hk
    rw [if_neg (by exact fun hc => hk.1 hc.symm)]
    simp only [List.map_cons, List.cons_append, List.cons.injEq, true_and]
    exact ih hk.2

theorem setFlow_mem_cases {l : List ((Nat × Nat × Nat × Nat × Int) × UtpFlow)}
    {k : Nat × Nat × Nat × Nat × Int} {f : UtpFlow} :
    ∀ kv ∈ setFlow l k f, kv ∈ l ∨ kv = (k, f) := by
  induction l with
  | nil => simp [setFlow]
  | cons kv0 rest ih =>
    rw [setFlow]
    by_cases h : kv0.1 = k
    · rw [if_pos h]
      intro kv hkv
      rcases List.mem_cons.1 hkv with rfl | hkv
      · exact Or.inr rfl
      · exact Or.inl (List.mem_cons_of_mem _ hkv)
    · rw [if_neg h]
      intro kv hkv
      rcases List.mem_cons.1 hkv with rfl | hkv
      · exact Or.inl (List.mem_cons_self _ _)
      · rcases ih kv hkv with hm | hm
        · exact Or.inl (List.mem_cons_of_mem _ hm)
        · exact Or.inr hm

theorem setFlow_length_mem {l : List ((Nat × Nat × Nat × Nat × Int) × UtpFlow)}
    {k : Nat × Nat × Nat × Nat × Int} (f : UtpFlow)
    (hk : k ∈ l.map Prod.fst) : (setFlow l k f).length = l.length := by
  have := congrArg List.length (setFlow_keys_mem f hk)
  simpa using this

theorem setFlow_length_not_mem {l : List ((Nat × Nat × Nat × Nat × Int) × UtpFlow)}
    {k : Nat × Nat × Nat × Nat × Int} (f : UtpFlow)
    (hk : k ∉ l.map Prod.fst) : (setFlow l k f).length = l.length + 1 := by
  have := congrArg List.length (setFlow_keys_not_mem f hk)
  simpa using this

theorem removeKey_mem {l : List ((Nat × Nat × Nat × Nat × Int) × UtpFlow)}
    {k : Nat × Nat × Nat × Nat × Int} :
    ∀ kv ∈ removeKey l k, kv ∈ l := by
  induction l with
  | nil => simp [removeKey]
  | cons kv0 rest ih =>
    rw [removeKey]
    by_cases h : kv0.1 = k
    · rw [if_pos h]
      exact fun kv hkv => List.mem_cons_of_mem _ (ih kv hkv)
    · rw [if_neg h]
      intro kv hkv
      rcases List.mem_cons.1 hkv with rfl | hkv
      · exact List.mem_cons_self _ _
      · exact List.mem_cons_of_mem _ (ih kv hkv)

theorem removeKey_keys_not_mem (l : List ((Nat × Nat × Nat × Nat × Int) × UtpFlow))
    (k : Nat × Nat × Nat × Nat × Int) :
    k ∉ (removeKey l k).map Prod.fst := by
  induction l with
  | nil => simp [removeKey]
  | cons kv0 rest ih =>
    rw [removeKey]
    by_cases h : kv0.1 = k
    · rw [if_pos h]; exact ih
    · rw [if_neg h]
      simp only [List.map_cons, List.mem_cons]
      rintro (rfl | hmem)
      · exact h rfl
      · exact ih hmem

theorem removeKey_keys_other {l : List ((Nat × Nat × Nat × Nat × Int) × UtpFlow)}
    {k k' : Nat × Nat × Nat × Nat × Int}
    (h : k' ∉ l.map Prod.fst) : k' ∉ (removeKey l k).map Prod.fst := by
  intro hc
  obtain ⟨kv, hkv, hk⟩ := List.mem_map.1 hc
  exact h (List.mem_map.2 ⟨kv, removeKey_mem kv hkv, hk⟩)

theorem removeKey_keys_nodup {l : List ((Nat × Nat × Nat × Nat × Int) × UtpFlow)}
    {k : Nat × Nat × Nat × Nat × Int}
    (h : (l.map Prod.fst).Nodup) : ((removeKey l k).map Prod.fst).Nodup := by
  induction l with
  | nil => simp [removeKey]
  | cons kv0 rest ih =>
    simp only [List.map_cons, List.nodup_cons] at h
    rw [removeKey]
    by_cases hk : kv0.1 = k
    · rw [if_pos hk]; exact ih h.2
    · rw [if_neg hk]
      simp only [List.map_cons, List.nodup_cons]
      exact ⟨removeKey_keys_other h.1, ih h.2⟩

theorem removeKey_not_mem_eq {l : List ((Nat × Nat × Nat × Nat × Int) × UtpFlow)}
    {k : Nat × Nat × Nat × Nat × Int}
    (h : k ∉ l.map Prod.fst) : removeKey l k = l := by
  induction l with
  | nil => simp [removeKey]
  | cons kv0 rest ih =>
    simp only [List.map_cons, List.mem_cons] at h
    push_neg at h
    rw [removeKey, if_neg (by exact fun hc => h.1 hc.symm), ih h.2]

theorem removeKey_length {l : List ((Nat × Nat × Nat × Nat × Int) × UtpFlow)}
    {k : Nat × Nat × Nat × Nat × Int}
    (hnd : (l.map Prod.fst).Nodup) (hk : k ∈ l.map Prod.fst) :
    (removeKey l k).length + 1 = l.length := by
  induction l with
  | nil => simp at hk
  | cons kv0 rest ih =>
    simp only [List.map_cons, List.nodup_cons] at hnd
    simp only [List.map_cons, List.mem_cons] at hk
    rw [removeKey]
    by_cases h : kv0.1 = k
    · rw [if_pos h]
      rw [removeKey_not_mem_eq (by rw [h] at hnd; exact hnd.1)]
      simp
    · rw [if_neg h]
      rcases hk with rfl | hk
      · exact absurd rfl h
      · simp only [List.length_cons]
        rw [← ih hnd.2 hk]

theorem addStage1_fields (f : UtpFlow) (d : Nat) (p : List Nat) (s : Nat) :
    (addStage1 f d p s).1.initiator_ip = f.initiator_ip ∧
    (addStage1 f d p s).1.initiator_port = f.initiator_port ∧
    (addStage1 f d p s).1.accepter_ip = f.accepter_ip ∧
    (addStage1 f d p s).1.accepter_port = f.accepter_port ∧
    (addStage1 f d p s).1.connid = f.connid ∧
    (addStage1 f d p s).1.state = f.state := by
  unfold addStage1
  simp only
  by_cases hseq : s = (if d = 0 then f.seq0 else f.seq1)
  · rw [if_pos hseq]
    by_cases hd : d = 0
    · rw [if_pos hd]; exact ⟨rfl, rfl, rfl, rfl, rfl, rfl⟩
    · rw [if_neg hd]; exact ⟨rfl, rfl, rfl, rfl, rfl, rfl⟩
  · rw [if_neg hseq]
    by_cases hgt : serial_lt (if d = 0 then f.seq0 else f.seq1) s = true
    · rw [if_pos hgt]; exact ⟨rfl, rfl, rfl, rfl, rfl, rfl⟩
    · rw [if_neg hgt]; exact ⟨rfl, rfl, rfl, rfl, rfl, rfl⟩

theorem add_segment_fields {fuel : Nat} {f : UtpFlow} {d : Nat} {p : List Nat}
    {s : Nat} {f' : UtpFlow} {evs : List SegEv}
    (h : add_segment fuel f d p s = some (f', evs)) :
    f'.initiator_ip = f.initiator_ip ∧ f'.initiator_port = f.initiator_port ∧
    f'.accepter_ip = f.accepter_ip ∧ f'.accepter_port = f.accepter_port ∧
    f'.connid = f.connid ∧ f'.state = f.state := by
  obtain ⟨r, hr, hf', hevs⟩ := add_segment_some h
  subst hf'
  exact addStage1_fields f d p s

theorem add_segment_tup {fuel : Nat} {f : UtpFlow} {d : Nat} {p : List Nat}
    {s : Nat} {f' : UtpFlow} {evs : List SegEv}
    (h : add_segment fuel f d p s = some (f', evs)) :
    UtpFlow.tup f' = UtpFlow.tup f := by
  obtain ⟨h1, h2, h3, h4, h5, _⟩ := add_segment_fields h
  simp [UtpFlow.tup, h1, h2, h3, h4, h5]

theorem mkFlow_tup (src sport dst dport connid s0 : Nat) :
    UtpFlow.tup (mkFlow src sport dst dport connid s0) =
      (src, sport, dst, dport, (connid : Int)) := rfl

theorem newFlowCount_append (a b : List Ev) :
    newFlowCount (a ++ b) = newFlowCount a + newFlowCount b := by
  simp [newFlowCount]

theorem flowClosedCount_append (a b : List Ev) :
    flowClosedCount (a ++ b) = flowClosedCount a + flowClosedCount b := by
  simp [flowClosedCount]

theorem newFlowCount_map_segToEv (l : List SegEv) :
    newFlowCount (l.map segToEv) = 0 := by
  induction l with
  | nil => simp [newFlowCount]
  | cons e rest ih => simpa [newFlowCount, segToEv, List.filter_cons] using ih

theorem flowClosedCount_map_segToEv (l : List SegEv) :
    flowClosedCount (l.map segToEv) = 0 := by
  induction l with
  | nil => simp [flowClosedCount]
  | cons e rest ih => simpa [flowClosedCount, segToEv, List.filter_cons] using ih

theorem updFlowT_inv {t : Tracer} {g : UtpFlow} (hInv : TableInv t)
    (hk : UtpFlow.tup g ∈ t.flows.map Prod.fst) :
    TableInv (updFlowT t g) := by
  obtain ⟨hnd, htup, hbal⟩ := hInv
  refine ⟨?_, ?_, ?_⟩
  · rw [updFlowT]
    simp only
    rw [setFlow_keys_mem g hk]
    exact hnd
  · intro kv hkv
    rcases setFlow_mem_cases kv hkv with hm | rfl
    · exact htup kv hm
    · rfl
  · rw [updFlowT]
    simp only
    rw [setFlow_length_mem g hk]
    exact hbal

theorem flushAndClose_inv {t : Tracer} {f : UtpFlow} (hInv : TableInv t)
    (hk : UtpFlow.tup f ∈ t.flows.map Prod.fst) :
    TableInv (flushAndClose t f).1 ∧
    (flushAndClose t f).1.added = t.added ∧
    (flushAndClose t f).1.closed = t.closed + 1 := by
  obtain ⟨hnd, htup, hbal⟩ := hInv
  refine ⟨⟨?_, ?_, ?_⟩, rfl, rfl⟩
  · exact removeKey_keys_nodup hnd
  · exact fun kv hkv => htup kv (removeKey_mem kv hkv)
  · simp only [flushAndClose]
    have := removeKey_length (k := UtpFlow.tup f) hnd hk
    omega

theorem handleInitSyn_inv {t : Tracer} {p : Packet} (hInv : TableInv t)
    (habs : (p.src, p.sport, p.dst, p.dport, (p.connid : Int)) ∉
      t.flows.map Prod.fst) :
    TableInv (handleInitSyn t p).1 ∧
    (handleInitSyn t p).1.added = t.added + 1 ∧
    (handleInitSyn t p).1.closed = t.closed := by
  obtain ⟨hnd, htup, hbal⟩ := hInv
  refine ⟨⟨?_, ?_, ?_⟩, rfl, rfl⟩
  · simp only [handleInitSyn]
    rw [setFlow_keys_not_mem _ habs]
    rw [List.nodup_append]
    refine ⟨hnd, List.nodup_singleton _, ?_⟩
    intro x hx hx'
    simp only [List.mem_singleton] at hx'
    subst hx'
    exact habs hx
  · intro kv hkv
    rcases setFlow_mem_cases kv hkv with hm | rfl
    · exact htup kv hm
    · exact mkFlow_tup _ _ _ _ _ _
  · simp only [handleInitSyn]
    rw [setFlow_length_not_mem _ habs]
    omega

theorem lookupFlow_none {t : Tracer} {p : Packet} (h : lookupFlow t p = none) :
    findFlow t.flows (key1 p) = none ∧ findFlow t.flows (key2 p) = none := by
  unfold lookupFlow at h
  cases h1 : findFlow t.flows (key1 p) with
  | none => rw [h1] at h; exact ⟨rfl, h⟩
  | some f => rw [h1] at h; exact absurd h (by simp)

theorem lookupFlow_some {t : Tracer} {p : Packet} {f : UtpFlow}
    (h : lookupFlow t p = some f) :
    findFlow t.flows (key1 p) = some f ∨
    (findFlow t.flows (key1 p) = none ∧ findFlow t.flows (key2 p) = some f) := by
  unfold lookupFlow at h
  cases h1 : findFlow t.flows (key1 p) with
  | none => rw [h1] at h; exact Or.inr ⟨rfl, h⟩
  | some g =>
    rw [h1] at h
    simp only [Option.some.injEq] at h
    subst h
    exact Or.inl rfl

theorem close_then_syn_inv {t : Tracer} {f : UtpFlow} {p : Packet}
    (hInv : TableInv t) (hk : UtpFlow.tup f ∈ t.flows.map Prod.fst)
    (hsyn : p.ty = ST_SYN)
    (habs : UtpFlow.tup f = key1 p ∨ findFlow t.flows (key1 p) = none) :
    TableInv (handleInitSyn (flushAndClose t f).1 p).1 ∧
    (handleInitSyn (flushAndClose t f).1 p).1.added = t.added + 1 ∧
    (handleInitSyn (flushAndClose t f).1 p).1.closed = t.closed + 1 := by
  obtain ⟨hI, hA, hC⟩ := flushAndClose_inv hInv hk
  have hkey1 : key1 p = (p.src, p.sport, p.dst, p.dport, (p.connid : Int)) := by
    simp [key1, hsyn]
  have habs' : (p.src, p.sport, p.dst, p.dport, (p.connid : Int)) ∉
      (flushAndClose t f).1.flows.map Prod.fst := by
    rw [← hkey1]
    simp only [flushAndClose]
    rcases habs with hh | hh
    · rw [← hh]
      exact removeKey_keys_not_mem _ _
    · exact removeKey_keys_other (findFlow_none hh)
  obtain ⟨hI2, hA2, hC2⟩ := handleInitSyn_inv hI habs'
  exact ⟨hI2, by omega, by omega⟩

set_option maxHeartbeats 3200000 in
theorem dispatch_inv {fuel : Nat} {t : Tracer} {f : UtpFlow} {p : Packet}
    {t' : Tracer} {evs : List Ev}
    (hInv : TableInv t)
    (hkmem : UtpFlow.tup f ∈ t.flows.map Prod.fst)
    (hprov : UtpFlow.tup f = key1 p ∨
       (findFlow t.flows (key1 p) = none ∧ UtpFlow.tup f = key2 p))
    (h : dispatchExisting fuel t f p = some (t', evs)) :
    TableInv t' ∧ t'.added = t.added + newFlowCount evs ∧
    t'.closed = t.closed + flowClosedCount evs := by
  have habs : UtpFlow.tup f = key1 p ∨ findFlow t.flows (key1 p) = none :=
    hprov.imp id And.left
  obtain ⟨hnd, htup, hbal⟩ := hInv
  unfold dispatchExisting at h
  by_cases c1 : f.state = CS_HANDSHAKE ∧ p.ty = ST_STATE
  · rw [if_pos c1] at h
    by_cases dd : fromInitiator f p
    · rw [if_pos dd] at h
      simp only [Option.some.injEq, Prod.mk.injEq] at h
      obtain ⟨rfl, rfl⟩ := h
      exact ⟨⟨hnd, htup, hbal⟩, by simp [newFlowCount], by simp [flowClosedCount]⟩
    · rw [if_neg dd] at h
      simp only [Option.some.injEq, Prod.mk.injEq] at h
      obtain ⟨rfl, rfl⟩ := h
      refine ⟨updFlowT_inv ⟨hnd, htup, hbal⟩ (by simpa [UtpFlow.tup] using hkmem),
        by simp [updFlowT, newFlowCount], by simp [updFlowT, flowClosedCount]⟩
  · rw [if_neg c1] at h
    by_cases c2 : f.state = CS_HANDSHAKE ∧ p.ty = ST_SYN
    · rw [if_pos c2] at h
      by_cases dd : fromInitiator f p
      · rw [if_pos dd] at h
        simp only [Option.some.injEq, Prod.mk.injEq] at h
        obtain ⟨rfl, rfl⟩ := h
        exact ⟨⟨hnd, htup, hbal⟩, by simp [newFlowCount], by simp [flowClosedCount]⟩
      · rw [if_neg dd] at h
        simp only [Option.some.injEq, Prod.mk.injEq] at h
        obtain ⟨rfl, rfl⟩ := h
        obtain ⟨hI, hA, hC⟩ := close_then_syn_inv ⟨hnd, htup, hbal⟩ hkmem c2.2 habs
        refine ⟨hI, ?_, ?_⟩
        · rw [hA]
          simp [flushAndClose, handleInitSyn, newFlowCount_append, newFlowCount]
        · rw [hC]
          simp [flushAndClose, handleInitSyn, flowClosedCount_append, flowClosedCount]
    · rw [if_neg c2] at h
      by_cases c3 : f.state = CS_SYN_ACKED ∧ p.ty = ST_FIN
      · rw [if_pos c3] at h
        by_cases dd : fromInitiator f p
        · rw [if_pos dd] at h
          simp only [Option.some.injEq, Prod.mk.injEq] at h
          obtain ⟨rfl, rfl⟩ := h
          refine ⟨updFlowT_inv ⟨hnd, htup, hbal⟩ (by simpa [UtpFlow.tup] using hkmem),
            by simp [updFlowT, newFlowCount], by simp [updFlowT, flowClosedCount]⟩
        · rw [if_neg dd] at h
          by_cases ee : fromAccepter f p
          · rw [if_pos ee] at h
            simp only [Option.some.injEq, Prod.mk.injEq] at h
            obtain ⟨rfl, rfl⟩ := h
            refine ⟨updFlowT_inv ⟨hnd, htup, hbal⟩ (by simpa [UtpFlow.tup] using hkmem),
              by simp [updFlowT, newFlowCount], by simp [updFlowT, flowClosedCount]⟩
          · rw [if_neg ee] at h
            simp only [Option.some.injEq, Prod.mk.injEq] at h
            obtain ⟨rfl, rfl⟩ := h
            exact ⟨⟨hnd, htup, hbal⟩, by simp [newFlowCount], by simp [flowClosedCount]⟩
      · rw [if_neg c3] at h
        by_cases c4 : (f.state = CS_SYN_ACKED ∨ f.state = CS_CONNECTED) ∧ p.ty = ST_DATA
        · rw [if_pos c4] at h
          by_cases dd : fromInitiator f p
          · rw [if_pos dd] at h
            cases ha : add_segment fuel f 0 p.body p.seq with
            | none => rw [ha] at h; exact absurd h (by simp)
            | some fe =>
              obtain ⟨f1, evs1⟩ := fe
              rw [ha] at h
              simp only [Option.some.injEq, Prod.mk.injEq] at h
              obtain ⟨rfl, rfl⟩ := h
              have htupeq : UtpFlow.tup { f1 with state := CS_CONNECTED } = UtpFlow.tup f := by
                have := add_segment_tup ha
                simpa [UtpFlow.tup] using this
              refine ⟨updFlowT_inv ⟨hnd, htup, hbal⟩ (by rw [htupeq]; exact hkmem),
                by simp [updFlowT, newFlowCount_map_segToEv],
                by simp [updFlowT, flowClosedCount_map_segToEv]⟩
          · rw [if_neg dd] at h
            by_cases ee : fromAccepter f p
            · rw [if_pos ee] at h
              cases ha : add_segment fuel f 1 p.body p.seq with
              | none => rw [ha] at h; exact absurd h (by simp)
              | some fe =>
                obtain ⟨f1, evs1⟩ := fe
                rw [ha] at h
                simp only [Option.some.injEq, Prod.mk.injEq] at h
                obtain ⟨rfl, rfl⟩ := h
                have htupeq : UtpFlow.tup { f1 with state := CS_CONNECTED } = UtpFlow.tup f := by
                  have := add_segment_tup ha
                  simpa [UtpFlow.tup] using this
                refine ⟨updFlowT_inv ⟨hnd, htup, hbal⟩ (by rw [htupeq]; exact hkmem),
                  by simp [updFlowT, newFlowCount_map_segToEv],
                  by simp [updFlowT, flowClosedCount_map_segToEv]⟩
            · rw [if_neg ee] at h
              simp only [Option.some.injEq, Prod.mk.injEq] at h
              obtain ⟨rfl, rfl⟩ := h
              exact ⟨⟨hnd, htup, hbal⟩, by simp [newFlowCount], by simp [flowClosedCount]⟩
        · rw [if_neg c4] at h
          by_cases c5 : f.state = CS_CONNECTED ∧ p.ty = ST_STATE
          · rw [if_pos c5] at h
            simp only [Option.some.injEq, Prod.mk.injEq] at h
            obtain ⟨rfl, rfl⟩ := h
            exact ⟨⟨hnd, htup, hbal⟩, by simp [newFlowCount], by simp [flowClosedCount]⟩
          · rw [if_neg c5] at h
            by_cases c6 : f.state = CS_CONNECTED ∧ p.ty = ST_RESET
            · rw [if_pos c6] at h
              simp only [Option.some.injEq] at h
              obtain ⟨hI, hA, hC⟩ := flushAndClose_inv ⟨hnd, htup, hbal⟩ hkmem
              have h1 : t' = (flushAndClose t f).1 := by rw [h]
              have h2 : evs = (flushAndClose t f).2 := by rw [h]
              subst h1
              subst h2
              exact ⟨hI, by simpa [flushAndClose, newFlowCount] using hA,
                by simpa [flushAndClose, flowClosedCount] using hC⟩
            · rw [if_neg c6] at h
              by_cases c7 : f.state = CS_CONNECTED ∧ p.ty = ST_FIN
              · rw [if_pos c7] at h
                by_cases dd : fromInitiator f p
                · rw [if_pos dd] at h
                  simp only [Option.some.injEq, Prod.mk.injEq] at h
                  obtain ⟨rfl, rfl⟩ := h
                  refine ⟨updFlowT_inv ⟨hnd, htup, hbal⟩ (by simpa [UtpFlow.tup] using hkmem),
                    by simp [updFlowT, newFlowCount], by simp [updFlowT, flowClosedCount]⟩
                · rw [if_neg dd] at h
                  simp only [Option.some.injEq, Prod.mk.injEq] at h
                  obtain ⟨rfl, rfl⟩ := h
                  refine ⟨updFlowT_inv ⟨hnd, htup, hbal⟩ (by simpa [UtpFlow.tup] using hkmem),
                    by simp [updFlowT, newFlowCount], by simp [updFlowT, flowClosedCount]⟩
              · rw [if_neg c7] at h
                by_cases c8 : f.state = CS_INITIATOR_SENT_FIN ∧ p.ty = ST_STATE
                · rw [if_pos c8] at h
                  simp only [Option.some.injEq, Prod.mk.injEq] at h
                  obtain ⟨rfl, rfl⟩ := h
                  refine ⟨updFlowT_inv ⟨hnd, htup, hbal⟩ (by simpa [UtpFlow.tup] using hkmem),
                    by simp [updFlowT, newFlowCount], by simp [updFlowT, flowClosedCount]⟩
                · rw [if_neg c8] at h
                  by_cases c9 : f.state = CS_ACCEPTER_SENT_FIN ∧ p.ty = ST_STATE
                  · rw [if_pos c9] at h
                    by_cases dd : fromAccepter f p
                    · rw [if_pos dd] at h
                      simp only [Option.some.injEq, Prod.mk.injEq] at h
                      obtain ⟨rfl, rfl⟩ := h
                      refine ⟨updFlowT_inv ⟨hnd, htup, hbal⟩ (by simpa [UtpFlow.tup] using hkmem),
                        by simp [updFlowT, newFlowCount], by simp [updFlowT, flowClosedCount]⟩
                    · rw [if_neg dd] at h
                      simp only [Option.some.injEq, Prod.mk.injEq] at h
                      obtain ⟨rfl, rfl⟩ := h
                      exact ⟨⟨hnd, htup, hbal⟩, by simp [newFlowCount], by simp [flowClosedCount]⟩
                  · rw [if_neg c9] at h
                    by_cases c10 : f.state = CS_INITIATOR_FIN_ACKED ∧ p.ty = ST_FIN
                    · rw [if_pos c10] at h
                      by_cases dd : fromInitiator f p
                      · rw [if_pos dd] at h
                        simp only [Option.some.injEq, Prod.mk.injEq] at h
                        obtain ⟨rfl, rfl⟩ := h
                        refine ⟨updFlowT_inv ⟨hnd, htup, hbal⟩ (by simpa [UtpFlow.tup] using hkmem),
                          by simp [updFlowT, newFlowCount], by simp [updFlowT, flowClosedCount]⟩
                      · rw [if_neg dd] at h
                        simp only [Option.some.injEq, Prod.mk.injEq] at h
                        obtain ⟨rfl, rfl⟩ := h
                        exact ⟨⟨hnd, htup, hbal⟩, by simp [newFlowCount], by simp [flowClosedCount]⟩
                    · rw [if_neg c10] at h
                      by_cases c11 : f.state = CS_ACCEPTER_FIN_ACKED ∧ p.ty = ST_FIN
                      · rw [if_pos c11] at h
                        by_cases dd : fromInitiator f p
                        · rw [if_pos dd] at h
                          simp only [Option.some.injEq, Prod.mk.injEq] at h
                          obtain ⟨rfl, rfl⟩ := h
                          refine ⟨updFlowT_inv ⟨hnd, htup, hbal⟩ (by simpa [UtpFlow.tup] using hkmem),
                            by simp [updFlowT, newFlowCount], by simp [updFlowT, flowClosedCount]⟩
                        · rw [if_neg dd] at h
                          simp only [Option.some.injEq, Prod.mk.injEq] at h
                          obtain ⟨rfl, rfl⟩ := h
                          exact ⟨⟨hnd, htup, hbal⟩, by simp [newFlowCount], by simp [flowClosedCount]⟩
                      · rw [if_neg c11] at h
                        by_cases c12 : f.state = CS_BOTH_SENT_FIN_INITIATOR_ACKED ∧ p.ty = ST_STATE
                        · rw [if_pos c12] at h
                          by_cases dd : fromAccepter f p
                          · rw [if_neg (not_not_intro dd)] at h
                            by_cases hpe : f.pending = []
                            · rw [if_neg (not_not_intro hpe)] at h
                              simp only [Option.some.injEq] at h
                              obtain ⟨hI, hA, hC⟩ := flushAndClose_inv ⟨hnd, htup, hbal⟩ hkmem
                              have h1 : t' = (flushAndClose t f).1 := by rw [h]
                              have h2 : evs = (flushAndClose t f).2 := by rw [h]
                              subst h1
                              subst h2
                              exact ⟨hI, by simpa [flushAndClose, newFlowCount] using hA,
                                by simpa [flushAndClose, flowClosedCount] using hC⟩
                            · rw [if_pos hpe] at h
                              simp only [Option.some.injEq, Prod.mk.injEq] at h
                              obtain ⟨rfl, rfl⟩ := h
                              refine ⟨updFlowT_inv ⟨hnd, htup, hbal⟩ (by simpa [UtpFlow.tup] using hkmem),
                                by simp [updFlowT, newFlowCount], by simp [updFlowT, flowClosedCount]⟩
                          · rw [if_pos dd] at h
                            simp only [Option.some.injEq, Prod.mk.injEq] at h
                            obtain ⟨rfl, rfl⟩ := h
                            exact ⟨⟨hnd, htup, hbal⟩, by simp [newFlowCount], by simp [flowClosedCount]⟩
                        · rw [if_neg c12] at h
                          by_cases c13 : f.state = CS_INITIATOR_SENT_FIN ∧ p.ty = ST_FIN
                          · rw [if_pos c13] at h
                            by_cases dd : fromAccepter f p
                            · rw [if_pos dd] at h
                              simp only [Option.some.injEq, Prod.mk.injEq] at h
                              obtain ⟨rfl, rfl⟩ := h
                              refine ⟨updFlowT_inv ⟨hnd, htup, hbal⟩ (by simpa [UtpFlow.tup] using hkmem),
                                by simp [updFlowT, newFlowCount], by simp [updFlowT, flowClosedCount]⟩
                            · rw [if_neg dd] at h
                              simp only [Option.some.injEq, Prod.mk.injEq] at h
                              obtain ⟨rfl, rfl⟩ := h
                              exact ⟨⟨hnd, htup, hbal⟩, by simp [newFlowCount], by simp [flowClosedCount]⟩
                          · rw [if_neg c13] at h
                            by_cases c14 : f.state = CS_ACCEPTER_SENT_FIN ∧ p.ty = ST_FIN
                            · rw [if_pos c14] at h
                              by_cases dd : fromInitiator f p
                              · rw [if_pos dd] at h
                                simp only [Option.some.injEq, Prod.mk.injEq] at h
                                obtain ⟨rfl, rfl⟩ := h
                                refine ⟨updFlowT_inv ⟨hnd, htup, hbal⟩ (by simpa [UtpFlow.tup] using hkmem),
                                  by simp [updFlowT, newFlowCount], by simp [updFlowT, flowClosedCount]⟩
                              · rw [if_neg dd] at h
                                simp only [Option.some.injEq, Prod.mk.injEq] at h
                                obtain ⟨rfl, rfl⟩ := h
                                exact ⟨⟨hnd, htup, hbal⟩, by simp [newFlowCount], by simp [flowClosedCount]⟩
                            · rw [if_neg c14] at h
                              by_cases c15 : f.state = CS_BOTH_SENT_FIN ∧ p.ty = ST_STATE
                              · rw [if_pos c15] at h
                                by_cases dd : fromInitiator f p
                                · rw [if_pos dd] at h
                                  simp only [Option.some.injEq, Prod.mk.injEq] at h
                                  obtain ⟨rfl, rfl⟩ := h
                                  refine ⟨updFlowT_inv ⟨hnd, htup, hbal⟩ (by simpa [UtpFlow.tup] using hkmem),
                                    by simp [updFlowT, newFlowCount], by simp [updFlowT, flowClosedCount]⟩
                                · rw [if_neg dd] at h
                                  simp only [Option.some.injEq, Prod.mk.injEq] at h
                                  obtain ⟨rfl, rfl⟩ := h
                                  refine ⟨updFlowT_inv ⟨hnd, htup, hbal⟩ (by simpa [UtpFlow.tup] using hkmem),
                                    by simp [updFlowT, newFlowCount], by simp [updFlowT, flowClosedCount]⟩
                              · rw [if_neg c15] at h
                                by_cases c16 : f.state = CS_BOTH_SENT_FIN_ACCEPTER_ACKED ∧ p.ty = ST_STATE
                                · rw [if_pos c16] at h
                                  by_cases dd : fromInitiator f p
                                  · rw [if_neg (not_not_intro dd)] at h
                                    by_cases hpe : f.pending = []
                                    · rw [if_neg (not_not_intro hpe)] at h
                                      simp only [Option.some.injEq] at h
                                      obtain ⟨hI, hA, hC⟩ := flushAndClose_inv ⟨hnd, htup, hbal⟩ hkmem
                                      have h1 : t' = (flushAndClose t f).1 := by rw [h]
                                      have h2 : evs = (flushAndClose t f).2 := by rw [h]
                                      subst h1
                                      subst h2
                                      exact ⟨hI, by simpa [flushAndClose, newFlowCount] using hA,
                                        by simpa [flushAndClose, flowClosedCount] using hC⟩
                                    · rw [if_pos hpe] at h
                                      simp only [Option.some.injEq, Prod.mk.injEq] at h
                                      obtain ⟨rfl, rfl⟩ := h
                                      refine ⟨updFlowT_inv ⟨hnd, htup, hbal⟩ (by simpa [UtpFlow.tup] using hkmem),
                                        by simp [updFlowT, newFlowCount], by simp [updFlowT, flowClosedCount]⟩
                                  · rw [if_pos dd] at h
                                    simp only [Option.some.injEq, Prod.mk.injEq] at h
                                    obtain ⟨rfl, rfl⟩ := h
                                    exact ⟨⟨hnd, htup, hbal⟩, by simp [newFlowCount], by simp [flowClosedCount]⟩
                                · rw [if_neg c16] at h
                                  by_cases c17 : f.state = CS_PENDING_CLOSE ∧ p.ty = ST_DATA
                                  · rw [if_pos c17] at h
                                    cases ha : add_segment fuel f (if fromInitiator f p then 0 else 1) p.body p.seq with
                                    | none => rw [ha] at h; exact absurd h (by simp)
                                    | some fe =>
                                      obtain ⟨f1, evs1⟩ := fe
                                      simp only [ha] at h
                                      by_cases hpe : f1.pending = []
                                      · rw [if_pos hpe] at h
                                        simp only [Option.some.injEq, Prod.mk.injEq] at h
                                        obtain ⟨rfl, rfl⟩ := h
                                        have htupeq : UtpFlow.tup f1 = UtpFlow.tup f := add_segment_tup ha
                                        have hU : TableInv (updFlowT t f1) :=
                                          updFlowT_inv ⟨hnd, htup, hbal⟩ (by rw [htupeq]; exact hkmem)
                                        have hk2 : UtpFlow.tup f1 ∈ (updFlowT t f1).flows.map Prod.fst := by
                                          rw [updFlowT]
                                          simp only
                                          rw [setFlow_keys_mem f1 (by rw [htupeq]; exact hkmem)]
                                          rw [htupeq]
                                          exact hkmem
                                        obtain ⟨hI, hA, hC⟩ := flushAndClose_inv hU hk2
                                        refine ⟨hI, ?_, ?_⟩
                                        · rw [hA]
                                          have hz : newFlowCount (List.map segToEv evs1 ++
                                              (flushAndClose (updFlowT t f1) f1).2) = 0 := by
                                            rw [newFlowCount_append, newFlowCount_map_segToEv]
                                            simp [flushAndClose, newFlowCount]
                                          rw [hz]
                                          simp [updFlowT]
                                        · rw [hC]
                                          have hz : flowClosedCount (List.map segToEv evs1 ++
                                              (flushAndClose (updFlowT t f1) f1).2) = 1 := by
                                            rw [flowClosedCount_append, flowClosedCount_map_segToEv]
                                            simp [flushAndClose, flowClosedCount]
                                          rw [hz]
                                          simp [updFlowT]
                                      · rw [if_neg hpe] at h
                                        simp only [Option.some.injEq, Prod.mk.injEq] at h
                                        obtain ⟨rfl, rfl⟩ := h
                                        refine ⟨updFlowT_inv ⟨hnd, htup, hbal⟩ (by rw [add_segment_tup ha]; exact hkmem),
                                          by simp [updFlowT, newFlowCount_map_segToEv],
                                          by simp [updFlowT, flowClosedCount_map_segToEv]⟩
                                  · rw [if_neg c17] at h
                                    by_cases c18 : (f.state = CS_INITIATOR_SENT_FIN ∨ f.state = CS_ACCEPTER_SENT_FIN ∨
                                          f.state = CS_INITIATOR_FIN_ACKED ∨ f.state = CS_ACCEPTER_FIN_ACKED ∨
                                          f.state = CS_BOTH_SENT_FIN ∨ f.state = CS_BOTH_SENT_FIN_INITIATOR_ACKED ∨
                                          f.state = CS_BOTH_SENT_FIN_ACCEPTER_ACKED) ∧ p.ty = ST_DATA
                                    · rw [if_pos c18] at h
                                      cases ha : add_segment fuel f (if fromInitiator f p then 0 else 1) p.body p.seq with
                                      | none => rw [ha] at h; exact absurd h (by simp)
                                      | some fe =>
                                        obtain ⟨f1, evs1⟩ := fe
                                        rw [ha] at h
                                        simp only [Option.some.injEq, Prod.mk.injEq] at h
                                        obtain ⟨rfl, rfl⟩ := h
                                        refine ⟨updFlowT_inv ⟨hnd, htup, hbal⟩ (by rw [add_segment_tup ha]; exact hkmem),
                                          by simp [updFlowT, newFlowCount_map_segToEv],
                                          by simp [updFlowT, flowClosedCount_map_segToEv]⟩
                                    · rw [if_neg c18] at h
                                      by_cases c19 : (f.state = CS_INITIATOR_SENT_FIN ∨ f.state = CS_ACCEPTER_SENT_FIN ∨
                                            f.state = CS_INITIATOR_FIN_ACKED ∨ f.state = CS_ACCEPTER_FIN_ACKED ∨
                                            f.state = CS_BOTH_SENT_FIN ∨ f.state = CS_BOTH_SENT_FIN_INITIATOR_ACKED ∨
                                            f.state = CS_BOTH_SENT_FIN_ACCEPTER_ACKED) ∧ p.ty = ST_SYN
                                      · rw [if_pos c19] at h
                                        simp only [Option.some.injEq, Prod.mk.injEq] at h
                                        obtain ⟨rfl, rfl⟩ := h
                                        obtain ⟨hI, hA, hC⟩ := close_then_syn_inv ⟨hnd, htup, hbal⟩ hkmem c19.2 habs
                                        refine ⟨hI, ?_, ?_⟩
                                        · rw [hA]
                                          simp [flushAndClose, handleInitSyn, newFlowCount_append, newFlowCount]
                                        · rw [hC]
                                          simp [flushAndClose, handleInitSyn, flowClosedCount_append, flowClosedCount]
                                      · rw [if_neg c19] at h
                                        simp only [Option.some.injEq, Prod.mk.injEq] at h
                                        obtain ⟨rfl, rfl⟩ := h
                                        exact ⟨⟨hnd, htup, hbal⟩, by simp [newFlowCount], by simp [flowClosedCount]⟩

theorem traceStep_inv {fuel : Nat} {t : Tracer} {p : Packet} {t' : Tracer}
    {evs : List Ev} (hInv : TableInv t)
    (h : traceStep fuel t p = some (t', evs)) :
    TableInv t' ∧ t'.added = t.added + newFlowCount evs ∧
    t'.closed = t.closed + flowClosedCount evs := by
  unfold traceStep at h
  cases hl : lookupFlow t p with
  | none =>
    simp only [hl] at h
    by_cases hsyn : p.ty = ST_SYN
    · rw [if_pos hsyn] at h
      simp only [Option.some.injEq] at h
      have h1 : t' = (handleInitSyn t p).1 := by rw [h]
      have h2 : evs = (handleInitSyn t p).2 := by rw [h]
      subst h1
      subst h2
      obtain ⟨hfin1, hfin2⟩ := lookupFlow_none hl
      have habs : (p.src, p.sport, p.dst, p.dport, (p.connid : Int)) ∉
          t.flows.map Prod.fst := by
        have := findFlow_none hfin1
        simpa [key1, hsyn] using this
      obtain ⟨hI, hA, hC⟩ := handleInitSyn_inv hInv habs
      exact ⟨hI, by rw [hA]; simp [handleInitSyn, newFlowCount],
             by rw [hC]; simp [handleInitSyn, flowClosedCount]⟩
    · rw [if_neg hsyn] at h
      simp only [Option.some.injEq, Prod.mk.injEq] at h
      obtain ⟨rfl, rfl⟩ := h
      exact ⟨hInv, by simp [newFlowCount], by simp [flowClosedCount]⟩
  | some f =>
    simp only [hl] at h
    obtain ⟨hnd, htup, hbal⟩ := hInv
    rcases lookupFlow_some hl with h1 | ⟨h1, h2⟩
    · have hm := findFlow_mem h1
      have ht : UtpFlow.tup f = key1 p := htup _ hm
      refine dispatch_inv ⟨hnd, htup, hbal⟩ ?_ (Or.inl ht) h
      rw [ht]
      exact List.mem_map_of_mem Prod.fst hm
    · have hm := findFlow_mem h2
      have ht : UtpFlow.tup f = key2 p := htup _ hm
      refine dispatch_inv ⟨hnd, htup, hbal⟩ ?_ (Or.inr ⟨h1, ht⟩) h
      rw [ht]
      exact List.mem_map_of_mem Prod.fst hm

theorem runTrace_inv {fuel : Nat} {t0 t : Tracer} {ps : List Packet}
    {evs : List Ev} (hInv : TableInv t0)
    (h : runTrace fuel t0 ps = some (t, evs)) :
    TableInv t ∧ t.added = t0.added + newFlowCount evs ∧
    t.closed = t0.closed + flowClosedCount evs := by
  induction ps generalizing t0 evs with
  | nil =>
    simp only [runTrace, Option.some.injEq, Prod.mk.injEq] at h
    obtain ⟨rfl, rfl⟩ := h
    exact ⟨hInv, by simp [newFlowCount], by simp [flowClosedCount]⟩
  | cons p rest ih =>
    rw [runTrace] at h
    cases h1 : traceStep fuel t0 p with
    | none => simp only [h1] at h; exact absurd h (by simp)
    | some te =>
      obtain ⟨t1, evs1⟩ := te
      simp only [h1] at h
      cases h2 : runTrace fuel t1 rest with
      | none => simp only [h2] at h; exact absurd h (by simp)
      | some te2 =>
        obtain ⟨t2, evs2⟩ := te2
        simp only [h2, Option.some.injEq, Prod.mk.injEq] at h
        obtain ⟨rfl, rfl⟩ := h
        obtain ⟨a1, a2, a3⟩ := traceStep_inv hInv h1
        obtain ⟨b1, b2, b3⟩ := ih a1 h2
        refine ⟨b1, ?_, ?_⟩
        · rw [newFlowCount_append]
          omega
        · rw [flowClosedCount_append]
          omega

/-- C10: after every fully processed capture prefix, the number of flows in
the table equals the number of `new_flow` events emitted so far minus the
number of `flow_closed` events: every created flow is inserted exactly once
with one `new_flow` callback and every closed flow is removed exactly once
with one `flow_closed` callback (the `added` and `closed` counters agree with
the event counts). -/
theorem c10_flow_count_balance (fuel : Nat) (ps : List Packet) (t : Tracer)
    (evs : List Ev) (h : runTrace fuel initTracer ps = some (t, evs)) :
    t.flows.length + flowClosedCount evs = newFlowCount evs ∧
    t.added = newFlowCount evs ∧ t.closed = flowClosedCount evs := by
  have hInit : TableInv initTracer :=
    ⟨by simp [initTracer], by simp [initTracer], by simp [initTracer]⟩
  obtain ⟨⟨hnd, htup, hbal⟩, hA, hC⟩ := runTrace_inv hInit h
  simp only [initTracer] at hA hC
  exact ⟨by omega, by omega, by omega⟩

/-- C10 witness: one SYN creates one flow — one table entry, one `new_flow`,
no `flow_closed`. -/
theorem c10_flow_count_balance_witness :
    c10tracerAfter.flows.length + flowClosedCount c10evs = newFlowCount c10evs ∧
    c10tracerAfter.added = newFlowCount c10evs ∧
    c10tracerAfter.closed = flowClosedCount c10evs :=
  c10_flow_count_balance 1 [c10pkt] c10tracerAfter c10evs (by decide)
